import Mathlib

/-!
# gown.js: Scrollable control and ResizeManager

A shallow embedding of `src/core/controls/Scrollable.js` and
`src/interaction/ResizeManager.js`, and theorems about them.

Numbers. A JavaScript number is modelled as `JSNum`: either `NaN` or a finite
value. Finite values are exact rationals, so the arithmetic of the model does
not round; the infinities and the sign of zero are not represented.

Objects. A method is a function from the object before the call to the object
after it, together with the value returned or the error raised. The thumb and
the skins are records of the fields the control reads or writes; a skin that is
not installed is `none`, and reading a property of it raises.

Scene graph. A display object carries an identity, its flags, its children,
and what its listeners and its handler members do to the event data. Callbacks
and handlers act on the event data and do not change the scene graph.

Host. The window's timers are a list of pending interval timers over a
discrete clock; the effects of a dispatch (emissions, handler calls,
`preventDefault`) are recorded in order in a log.
-/

namespace Gown

/-! ## JavaScript numbers -/

/-- A JavaScript number: `NaN` or a finite value (an exact rational). -/
inductive JSNum where
  | nan : JSNum
  | num (q : ℚ) : JSNum
deriving DecidableEq

namespace JSNum

instance : Inhabited JSNum := ⟨num 0⟩

/-- The global `isNaN` on a number. -/
def isNaN : JSNum → Bool
  | nan => true
  | num _ => false

/-- The operator `a + b`. -/
def add : JSNum → JSNum → JSNum
  | num a, num b => num (a + b)
  | _, _ => nan

/-- The operator `a - b`, as the exact difference; the rounding of double
precision is in `subDouble`. -/
def sub : JSNum → JSNum → JSNum
  | num a, num b => num (a - b)
  | _, _ => nan

/-- The operator `a * b`. -/
def mul : JSNum → JSNum → JSNum
  | num a, num b => num (a * b)
  | _, _ => nan

/-- The operator `a / b`. A zero divisor gives a non-finite value in
JavaScript, here `nan`; the source only ever divides by the literal `2`. -/
def div : JSNum → JSNum → JSNum
  | num a, num b => if b = 0 then nan else num (a / b)
  | _, _ => nan

instance : Add JSNum := ⟨add⟩
instance : Sub JSNum := ⟨sub⟩
instance : Mul JSNum := ⟨mul⟩
instance : Div JSNum := ⟨div⟩

/-- The function `Math.min(a, b)`: `NaN` as soon as one argument is `NaN`. -/
def min : JSNum → JSNum → JSNum
  | num a, num b => num (Min.min a b)
  | _, _ => nan

/-- The function `Math.max(a, b)`: `NaN` as soon as one argument is `NaN`. -/
def max : JSNum → JSNum → JSNum
  | num a, num b => num (Max.max a b)
  | _, _ => nan

/-- The operator `a !== b` on numbers: `NaN` is different from every number,
itself included. -/
def strictNe : JSNum → JSNum → Bool
  | num a, num b => decide (a ≠ b)
  | _, _ => true

/-- The comparison `a <= b`: false as soon as one side is `NaN`. -/
def le : JSNum → JSNum → Prop
  | num a, num b => a ≤ b
  | _, _ => False

instance : LE JSNum := ⟨le⟩

instance (a b : JSNum) : Decidable (a ≤ b) :=
  match a, b with
  | num a, num b => inferInstanceAs (Decidable (a ≤ b))
  | nan, _ => isFalse (fun h => h)
  | num _, nan => isFalse (fun h => h)

end JSNum

/-! ## JavaScript numbers: double precision

The operators above compute on exact rationals. A JavaScript number is a double,
and the program's `a - b` is the exact difference rounded to the nearest double.
The definitions below give that rounding; they are used where a property asks
for a coordinate to be restored exactly. -/

/-- Nearest integer to `x`, a tie going to the even neighbour. -/
def roundNearestEven (x : ℚ) : ℤ :=
  if x - ⌊x⌋ < 1 / 2 then ⌊x⌋
  else if 1 / 2 < x - ⌊x⌋ then ⌊x⌋ + 1
  else if ⌊x⌋ % 2 = 0 then ⌊x⌋ else ⌊x⌋ + 1

/-- Exponent of the last binary digit a double keeps of `q`: 52 below the
exponent of `q`, and `-1074` for subnormal values. -/
def ulpExponent (q : ℚ) : ℤ := max (Int.log 2 |q| - 52) (-1074)

/-- The value of `q` rounded to double precision (binary64, round to nearest,
ties to even); `none` when the rounded value is beyond the largest double, where
JavaScript gives `Infinity`. -/
def roundDouble (q : ℚ) : Option ℚ :=
  if |(roundNearestEven (q / 2 ^ ulpExponent q) : ℚ) * 2 ^ ulpExponent q| < 2 ^ (1024 : ℤ) then
    some ((roundNearestEven (q / 2 ^ ulpExponent q) : ℚ) * 2 ^ ulpExponent q)
  else none

namespace JSNum

/-- The value is a double: `NaN`, or a rational that rounding leaves alone. -/
def IsDouble : JSNum → Prop
  | nan => True
  | num q => roundDouble q = some q

instance (a : JSNum) : Decidable a.IsDouble :=
  match a with
  | nan => isTrue trivial
  | num q => inferInstanceAs (Decidable (roundDouble q = some q))

/-- The operator `a - b` in double precision: the exact difference, rounded;
`none` when the result is `Infinity` or `-Infinity`. -/
def subDouble : JSNum → JSNum → Option JSNum
  | num a, num b => (roundDouble (a - b)).map num
  | _, _ => some nan

end JSNum

/-! ## Scrollable: data -/

/-- The two values of `Scrollable.orientation` (`Scrollable.HORIZONTAL`,
`Scrollable.VERTICAL`). -/
inductive Orientation where
  | horizontal
  | vertical
deriving DecidableEq

/-- The two values of `Scrollable.mode`. -/
inductive Mode where
  | desktop
  | mobile
deriving DecidableEq

/-- The fields of the thumb (a display object) that `Scrollable` reads or
writes. -/
structure ScrollThumb where
  x : JSNum
  y : JSNum
  width : JSNum
  height : JSNum
  invalidTrack : Bool
deriving DecidableEq

/-- The fields of a skin (a display object) that `Scrollable` reads or
writes. -/
structure Skin where
  x : JSNum
  y : JSNum
  width : JSNum
  height : JSNum
deriving DecidableEq

/-- The fields of a `Scrollable`. `skin` is the track skin; `skin` and
`progressSkin` are `none` until `showTrack` and `showProgress` install them.
The constructor always installs a thumb. -/
structure Scrollable where
  mode : Mode
  orientation : Orientation
  thumb : ScrollThumb
  invalidTrack : Bool
  _inverse : Bool
  _start : Option (JSNum × JSNum)
  scrolldelta : JSNum
  _width : JSNum
  _height : JSNum
  skin : Option Skin
  progressSkin : Option Skin
deriving DecidableEq

/-- What a JavaScript call can raise here: reading a property of `undefined`. -/
inductive JSError where
  | typeError
deriving DecidableEq

/-- The outcome of a method call: the object as the call left it, and either
the returned value or the error raised. -/
structure Outcome (α : Type) where
  state : Scrollable
  result : Except JSError α

/-- The method returned a value. -/
def Outcome.Returned {α : Type} (o : Outcome α) : Prop :=
  ∃ v, o.result = .ok v

/-- The method returned after calling the hook `thumbMoved`. -/
def Outcome.HookCalled {α : Type} (o : Outcome (Option α)) : Prop :=
  ∃ a, o.result = .ok (some a)

namespace Scrollable

/-- The getter of `width`. -/
def width (s : Scrollable) : JSNum := s._width

/-- The getter of `height`. -/
def height (s : Scrollable) : JSNum := s._height

/-- The getter of `inverse`. -/
def inverse (s : Scrollable) : Bool := s._inverse

/-! ## Scrollable: operations -/

/-- The method `_updateProgressSkin`. The assignments to the progress skin are
made one after the other, so those made before `this.skin.height` (or
`this.skin.width`) raises on a missing track skin are kept. -/
def _updateProgressSkin (s : Scrollable) : Outcome Unit :=
  match s.progressSkin with
  | none => ⟨s, .ok ()⟩
  | some p =>
    match s.orientation with
    | .horizontal =>
      let progressPosX := s.thumb.x + s.thumb.width / .num 2
      let p1 : Skin :=
        if s.inverse then { p with x := progressPosX, width := s.width - progressPosX }
        else { p with x := .num 0, width := progressPosX }
      match s.skin with
      | none => ⟨{ s with progressSkin := some p1 }, .error .typeError⟩
      | some k => ⟨{ s with progressSkin := some { p1 with height := k.height } }, .ok ()⟩
    | .vertical =>
      let progressPosY := s.thumb.y + s.thumb.height / .num 2
      let p1 : Skin :=
        if s.inverse then { p with y := progressPosY, height := s.height - progressPosY }
        else { p with y := .num 0, height := progressPosY }
      match s.skin with
      | none => ⟨{ s with progressSkin := some p1 }, .error .typeError⟩
      | some k => ⟨{ s with progressSkin := some { p1 with width := k.width } }, .ok ()⟩

/-- The method `maxWidth`. -/
def maxWidth (s : Scrollable) : JSNum := s.width - s.thumb.width

/-- The method `maxHeight`. -/
def maxHeight (s : Scrollable) : JSNum := s.height - s.thumb.height

/-- The method `moveThumb`. -/
def moveThumb (s : Scrollable) (x y : JSNum) : Outcome Bool :=
  match s.orientation with
  | .horizontal =>
    if x.isNaN then ⟨s, .ok false⟩
    else
      let x := JSNum.min x s.maxWidth
      let x := JSNum.max x (.num 0)
      if JSNum.strictNe x s.thumb.x then
        let s1 := { s with thumb := { s.thumb with x := x } }
        let o := s1._updateProgressSkin
        ⟨o.state, o.result.map (fun _ => true)⟩
      else ⟨s, .ok false⟩
  | .vertical =>
    if y.isNaN then ⟨s, .ok false⟩
    else
      let y := JSNum.min y s.maxHeight
      let y := JSNum.max y (.num 0)
      if JSNum.strictNe y s.thumb.y then
        let s1 := { s with thumb := { s.thumb with y := y } }
        let o := s1._updateProgressSkin
        ⟨o.state, o.result.map (fun _ => true)⟩
      else ⟨s, .ok false⟩

/-- The setter of `inverse`. An error raised by `moveThumb` leaves the setter
before the invalidation flags are written. -/
def setInverse (s : Scrollable) (inverse : Bool) : Outcome Unit :=
  if inverse ≠ s._inverse then
    let s1 := { s with _inverse := inverse }
    let o :=
      match s1.orientation with
      | .horizontal => s1.moveThumb (.num 0) (s1.width - s1.thumb.x)
      | .vertical => s1.moveThumb (.num 0) (s1.height - s1.thumb.y)
    match o.result with
    | .error e => ⟨o.state, .error e⟩
    | .ok _ =>
      ⟨{ o.state with invalidTrack := true,
                      thumb := { o.state.thumb with invalidTrack := true } }, .ok ()⟩
  else ⟨s, .ok ()⟩

/-- The setter of `width`. -/
def setWidth (s : Scrollable) (width : JSNum) : Scrollable :=
  { s with _width := width, invalidTrack := true,
           thumb := { s.thumb with invalidTrack := true } }

/-- The setter of `height`. -/
def setHeight (s : Scrollable) (height : JSNum) : Scrollable :=
  { s with _height := height, invalidTrack := true,
           thumb := { s.thumb with invalidTrack := true } }

/-- The method `handleDown`; `localPos` is `mouseData.getLocalPosition(this)`. -/
def handleDown (s : Scrollable) (localPos : JSNum × JSNum) : Scrollable :=
  { s with _start := some (localPos.1, localPos.2) }

/-- The method `handleUp`. -/
def handleUp (s : Scrollable) : Scrollable :=
  { s with _start := none }

/-- The method `handleMove`; `localPos` is `mouseData.getLocalPosition(this)`.
The value is the pair of arguments `thumbMoved` was called with, when it was
called; the hook itself is the default one, which does nothing. An error
raised by `moveThumb` leaves the method before the hook and the anchor. -/
def handleMove (s : Scrollable) (localPos : JSNum × JSNum) :
    Outcome (Option (JSNum × JSNum)) :=
  match s._start with
  | none => ⟨s, .ok none⟩
  | some start =>
    let x := s.thumb.x + localPos.1 - start.1
    let y := s.thumb.y + localPos.2 - start.2
    let o := s.moveThumb x y
    match o.result with
    | .error e => ⟨o.state, .error e⟩
    | .ok true => ⟨{ o.state with _start := some (localPos.1, localPos.2) }, .ok (some (x, y))⟩
    | .ok false => ⟨o.state, .ok none⟩

/-- The method `handleWheel`; `delta` is `event.delta`. The value is the pair of
arguments `thumbMoved` was called with, when it was called. -/
def handleWheel (s : Scrollable) (delta : JSNum) : Outcome (Option (JSNum × JSNum)) :=
  let x := s.thumb.x - delta * s.scrolldelta
  let y := s.thumb.y - delta * s.scrolldelta
  let o := s.moveThumb x y
  match o.result with
  | .error e => ⟨o.state, .error e⟩
  | .ok true => ⟨o.state, .ok (some (x, y))⟩
  | .ok false => ⟨o.state, .ok none⟩

/-! ## Scrollable: vocabulary of the properties -/

/-- The thumb's coordinate on the active axis: `thumb.x` when horizontal,
`thumb.y` when vertical. -/
def thumbPos (s : Scrollable) : JSNum :=
  match s.orientation with
  | .horizontal => s.thumb.x
  | .vertical => s.thumb.y

/-- The thumb's coordinate on the inactive axis. -/
def thumbCross (s : Scrollable) : JSNum :=
  match s.orientation with
  | .horizontal => s.thumb.y
  | .vertical => s.thumb.x

/-- The proposed coordinate on the active axis: `x` when horizontal, `y` when
vertical. -/
def activeCoord (s : Scrollable) (x y : JSNum) : JSNum :=
  match s.orientation with
  | .horizontal => x
  | .vertical => y

/-- The container extent on the active axis. -/
def extent (s : Scrollable) : JSNum :=
  match s.orientation with
  | .horizontal => s.width
  | .vertical => s.height

/-- The largest thumb coordinate: `maxWidth()` when horizontal, `maxHeight()`
when vertical. -/
def maxExtent (s : Scrollable) : JSNum :=
  match s.orientation with
  | .horizontal => s.maxWidth
  | .vertical => s.maxHeight

/-- The clamped coordinate `max(min(p, maxExtent), 0)`. -/
def clamped (s : Scrollable) (p : JSNum) : JSNum :=
  JSNum.max (JSNum.min p s.maxExtent) (.num 0)

/-- The thumb's coordinate on the active axis lies in `[0, maxExtent]`. -/
def InBounds (s : Scrollable) : Prop :=
  .num 0 ≤ s.thumbPos ∧ s.thumbPos ≤ s.maxExtent

/-- The object with the thumb's active coordinate replaced by `c`. -/
def withThumbPos (s : Scrollable) (c : JSNum) : Scrollable :=
  match s.orientation with
  | .horizontal => { s with thumb := { s.thumb with x := c } }
  | .vertical => { s with thumb := { s.thumb with y := c } }

/-- No call of `_updateProgressSkin` can raise: the track skin is attached, or
no progress skin is. -/
def SkinsSafe (s : Scrollable) : Prop :=
  s.skin.isSome ∨ s.progressSkin.isNone

/-- The geometry of the control is numeric: the container extents and the
thumb's position and extents are numbers. -/
def NumericGeometry (s : Scrollable) : Prop :=
  s._width.isNaN = false ∧ s._height.isNaN = false ∧
  s.thumb.x.isNaN = false ∧ s.thumb.y.isNaN = false ∧
  s.thumb.width.isNaN = false ∧ s.thumb.height.isNaN = false

instance (s : Scrollable) : Decidable s.SkinsSafe :=
  inferInstanceAs (Decidable (s.skin.isSome ∨ s.progressSkin.isNone))

/-- The object after a sequence of wheel events, given by their deltas. -/
def wheels (s : Scrollable) (deltas : List JSNum) : Scrollable :=
  deltas.foldl (fun t d => (t.handleWheel d).state) s

/-- The coordinate `progressPos`: the thumb's active coordinate plus half the
thumb's extent on the active axis. -/
def progressPos (s : Scrollable) : JSNum :=
  match s.orientation with
  | .horizontal => s.thumb.x + s.thumb.width / .num 2
  | .vertical => s.thumb.y + s.thumb.height / .num 2

/-- The progress skin as the spec describes it after a refresh, from the
progress skin `p` before and the track skin `k`: it starts at 0 with extent
`progressPos` when `inverse` is false, starts at `progressPos` with extent
`extent - progressPos` when `inverse` is true, takes the track skin's extent on
the cross axis, and keeps its position on the cross axis. -/
def refreshedSkin (s : Scrollable) (p k : Skin) : Skin :=
  match s.orientation, s._inverse with
  | .horizontal, false =>
    { x := .num 0, width := s.progressPos, height := k.height, y := p.y }
  | .horizontal, true =>
    { x := s.progressPos, width := s.extent - s.progressPos, height := k.height, y := p.y }
  | .vertical, false =>
    { y := .num 0, height := s.progressPos, width := k.width, x := p.x }
  | .vertical, true =>
    { y := s.progressPos, height := s.extent - s.progressPos, width := k.width, x := p.x }

/-- The candidate position of a drag on the active axis: the thumb's coordinate
plus the pointer's, minus the anchor's. -/
def dragCandidate (s : Scrollable) (p a : JSNum × JSNum) : JSNum :=
  s.thumbPos + s.activeCoord p.1 p.2 - s.activeCoord a.1 a.2

/-- The object after `handleDown` at `p0` followed by `handleMove` at each
position of `moves`, in order; a call that raises does not stop the later
ones. -/
def drag (s : Scrollable) (p0 : JSNum × JSNum) (moves : List (JSNum × JSNum)) : Scrollable :=
  moves.foldl (fun t p => (t.handleMove p).state) (s.handleDown p0)

/-- Along the calls of `handleMove` at the positions of `moves`, starting from
`t`, there is an anchor and every candidate position lies in `[0, maxExtent]`. -/
def Unclamped : Scrollable → List (JSNum × JSNum) → Prop
  | _, [] => True
  | t, p :: rest =>
    (∃ a, t._start = some a ∧ .num 0 ≤ t.dragCandidate p a ∧
      t.dragCandidate p a ≤ t.maxExtent) ∧
    Unclamped (t.handleMove p).state rest

/-! ## Concrete Scrollable states -/

/-- A horizontal bar 200 wide with a 20 by 20 thumb at `x = 50`, both skins
attached. -/
def hbar : Scrollable :=
  { mode := .desktop, orientation := .horizontal,
    thumb := { x := .num 50, y := .num 0, width := .num 20, height := .num 20,
               invalidTrack := false },
    invalidTrack := false, _inverse := false, _start := none, scrolldelta := .num 10,
    _width := .num 200, _height := .num 20,
    skin := some { x := .num 0, y := .num 0, width := .num 200, height := .num 20 },
    progressSkin := some { x := .num 0, y := .num 0, width := .num 60, height := .num 20 } }

/-- A vertical bar 200 high with a 20 by 20 thumb at `y = 0`, both skins
attached. -/
def vbar : Scrollable :=
  { mode := .desktop, orientation := .vertical,
    thumb := { x := .num 0, y := .num 0, width := .num 20, height := .num 20,
               invalidTrack := false },
    invalidTrack := false, _inverse := false, _start := none, scrolldelta := .num 10,
    _width := .num 20, _height := .num 200,
    skin := some { x := .num 0, y := .num 0, width := .num 20, height := .num 200 },
    progressSkin := some { x := .num 0, y := .num 0, width := .num 20, height := .num 10 } }

/-- The vertical bar with the thumb at `y = 50`. -/
def vbarMid : Scrollable :=
  { vbar with thumb := { vbar.thumb with y := .num 50 } }

/-- The vertical bar with the thumb at the double nearest to `50.3`, which is
`3539547832136499 / 2 ^ 46`. -/
def vbarFrac : Scrollable :=
  { vbar with thumb := { vbar.thumb with y := .num (3539547832136499 / 70368744177664) } }

/-- The horizontal bar made 10 wide, narrower than its 20 wide thumb, with the
thumb at `x = 0`. -/
def narrowBar : Scrollable :=
  { hbar with _width := .num 10, thumb := { hbar.thumb with x := .num 0 } }

/-- The horizontal bar after its width was set to 100 while the thumb was at
`x = 150`. -/
def shrunkBar : Scrollable :=
  { hbar with _width := .num 100, thumb := { hbar.thumb with x := .num 150 } }

/-- The horizontal bar with a progress skin and no track skin. -/
def noTrackBar : Scrollable :=
  { hbar with skin := none }

/-- The horizontal bar whose width is not a number. -/
def unsizedBar : Scrollable :=
  { hbar with _width := .nan }

/-- The bar with a progress skin as `showProgress` installs it (width and
height 0) and no track skin. -/
def freshProgressBar : Scrollable :=
  { hbar with skin := none,
              progressSkin := some { x := .num 0, y := .num 0, width := .num 0, height := .num 0 } }

/-- The vertical bar with a progress skin and no track skin. -/
def noTrackVBar : Scrollable :=
  { vbar with skin := none }

/-- The horizontal bar with `inverse` on. -/
def inverseBar : Scrollable :=
  { hbar with _inverse := true }

/-- The horizontal bar after `handleDown` at `(0, 0)`. -/
def dragBar : Scrollable :=
  hbar.handleDown (.num 0, .num 0)

/-- The bar with a progress skin and no track skin after `handleDown` at
`(0, 0)`. -/
def dragNoTrackBar : Scrollable :=
  noTrackBar.handleDown (.num 0, .num 0)

/-- The horizontal bar with the thumb at `x = 150`. -/
def farBar : Scrollable :=
  { hbar with thumb := { hbar.thumb with x := .num 150 } }

end Scrollable

/-! ## ResizeManager: data -/

/-- The object `getSizeData` builds: the DOM event (by its identity) and the
size read from the window or from the element. -/
structure SizeData where
  originalEvent : Nat
  width : JSNum
  height : JSNum
deriving DecidableEq

/-- The object `ResizeManager.eventData`. `target` holds the identity of the
display object; `data` is `none` for the empty object the constructor stores. -/
structure EventData where
  stopped : Bool
  target : Option Nat
  type : Option String
  data : Option SizeData
deriving DecidableEq

/-- The method `eventData.stopPropagation`. -/
def EventData.stopPropagation (e : EventData) : EventData :=
  { e with stopped := true }

/-- A display object of the scene graph, as the manager sees it: its identity,
the flags `visible` and `resizable`, what its listeners do to the event data
when the object emits an event of a given name, its member of a given name when
it has one (what that handler does to the event data), and its children. A
member that is present is a function; `none` stands for a member that is
missing. -/
inductive SceneNode where
  | mk (id : Nat) (visible resizable : Bool)
      (listeners : String → EventData → EventData)
      (member : String → Option (EventData → EventData))
      (children : List SceneNode)

namespace SceneNode

/-- The identity of the display object. -/
def id : SceneNode → Nat
  | mk i _ _ _ _ _ => i

/-- The property `visible`. -/
def visible : SceneNode → Bool
  | mk _ v _ _ _ _ => v

/-- The property `resizable`. -/
def resizable : SceneNode → Bool
  | mk _ _ r _ _ _ => r

/-- What the listeners of the object do to the event data on `emit`. -/
def listeners : SceneNode → String → EventData → EventData
  | mk _ _ _ l _ _ => l

/-- The member `displayObject[eventString]`, when there is one. -/
def member : SceneNode → String → Option (EventData → EventData)
  | mk _ _ _ _ m _ => m

/-- The property `children`. -/
def children : SceneNode → List SceneNode
  | mk _ _ _ _ _ c => c

end SceneNode

/-- What a dispatch does to the world outside the manager, in order. -/
inductive Effect where
  /-- The call `displayObject.emit(type, eventData)`, with the event data passed. -/
  | nodeEmit (node : Nat) (type : String) (arg : EventData)
  /-- The call `displayObject[type](eventData)`, with the event data passed. -/
  | nodeCall (node : Nat) (type : String) (arg : EventData)
  /-- The call `this.emit(type, this.eventData)` on the manager. -/
  | managerEmit (type : String) (arg : EventData)
  /-- The call `event.preventDefault()`. -/
  | preventDefault (event : Nat)
deriving DecidableEq

/-- The calls `this.emit(type, this.eventData)` of the manager among the
effects. -/
def Effect.isManagerEmit : Effect → Bool
  | .managerEmit _ _ => true
  | _ => false

/-- The event data and the effects so far: what a dispatch reads and writes. -/
structure Dispatch where
  eventData : EventData
  log : List Effect
deriving DecidableEq

/-- A pending interval timer of the host: its identifier, the time of its next
expiry, its period, and the DOM event its callback has captured. -/
structure Timer where
  id : Nat
  due : Nat
  period : Nat
  event : Nat
deriving DecidableEq

/-- The element the manager measures. -/
structure Element where
  clientWidth : JSNum
  clientHeight : JSNum
deriving DecidableEq

/-- The host: the window's inner size, the clock, the interval timers, and the
effects observed so far. -/
structure Host where
  innerWidth : JSNum
  innerHeight : JSNum
  now : Nat
  timersCreated : Nat
  timers : List Timer
  log : List Effect
deriving DecidableEq

/-- The fields of a `ResizeManager`; `root` is `renderer._lastObjectRendered`. -/
structure ResizeManager where
  root : Option SceneNode
  autoPreventDefault : Bool
  fullscreen : Bool
  element : Option Element
  resizeTimeout : Nat
  useResizeDoneTimeout : Bool
  eventData : EventData

/-! ## ResizeManager: host functions -/

namespace Host

/-- The host function `setInterval`: a new timer with a fresh identifier, which
is never zero, first due one period from now. -/
def setInterval (h : Host) (event period : Nat) : Nat × Host :=
  (h.timersCreated + 1,
   { h with timersCreated := h.timersCreated + 1,
            timers := h.timers ++ [⟨h.timersCreated + 1, h.now + period, period, event⟩] })

/-- The host function `clearInterval`. -/
def clearInterval (h : Host) (id : Nat) : Host :=
  { h with timers := h.timers.filter (fun t => t.id != id) }

/-- The call `event.preventDefault()`. -/
def preventDefault (h : Host) (event : Nat) : Host :=
  { h with log := h.log ++ [.preventDefault event] }

end Host

/-! ## ResizeManager: operations -/

namespace ResizeManager

/-- The constant `ResizeManager.RESIZE_DONE_TIMEOUT`. -/
def RESIZE_DONE_TIMEOUT : Nat := 200

mutual
/-- The method `processInteractive` on a display object that is present: the
state of the callback afterwards, and the value returned (`none` for
`undefined`). -/
def processInteractiveNode {σ : Type} (func : SceneNode → σ → σ) :
    SceneNode → σ → σ × Option Bool
  | .mk i v r l m children, s =>
    if !v then (s, some false)
    else
      let s1 := if r then func (.mk i v r l m children) s else s
      (processInteractiveLoop func children s1, none)
/-- The loop of `processInteractive` over `children`, from the last child to
the first. -/
def processInteractiveLoop {σ : Type} (func : SceneNode → σ → σ) :
    List SceneNode → σ → σ
  | [], s => s
  | child :: before, s =>
    (processInteractiveNode func child (processInteractiveLoop func before s)).1
end

/-- The method `processInteractive`; the display object may be absent. The
callback acts on a state of its own and does not change the scene graph. -/
def processInteractive {σ : Type} (func : SceneNode → σ → σ)
    (displayObject : Option SceneNode) (s : σ) : σ × Option Bool :=
  match displayObject with
  | none => (s, some false)
  | some d => processInteractiveNode func d s

/-- The method `dispatchEvent`. -/
def dispatchEvent (displayObject : SceneNode) (eventString : String) (d : Dispatch) :
    Dispatch :=
  if !d.eventData.stopped then
    let e1 := { d.eventData with target := some displayObject.id, type := some eventString }
    let e2 := displayObject.listeners eventString e1
    let log2 := d.log ++ [.nodeEmit displayObject.id eventString e1]
    match displayObject.member eventString with
    | some handler => ⟨handler e2, log2 ++ [.nodeCall displayObject.id eventString e2]⟩
    | none => ⟨e2, log2⟩
  else d

/-- The method `processResize`. -/
def processResize (displayObject : SceneNode) (d : Dispatch) : Dispatch :=
  dispatchEvent displayObject "resize" d

/-- The method `getSizeData`; reading `clientWidth` of a missing element
raises. -/
def getSizeData (m : ResizeManager) (h : Host) (event : Nat) : Except JSError SizeData :=
  if m.fullscreen then
    .ok { originalEvent := event, width := h.innerWidth, height := h.innerHeight }
  else
    match m.element with
    | some el => .ok { originalEvent := event, width := el.clientWidth, height := el.clientHeight }
    | none => .error .typeError

/-- The method `_resizeEvent`: the manager and the host afterwards, and whether
the call returned or raised. -/
def _resizeEvent (m : ResizeManager) (h : Host) (event : Nat) :
    (ResizeManager × Host) × Except JSError Unit :=
  let e0 := { m.eventData with stopped := false }
  match getSizeData m h event with
  | .error err => (({ m with eventData := e0 }, h), .error err)
  | .ok size =>
    let e1 := { e0 with data := some size }
    let h1 := if m.autoPreventDefault then h.preventDefault event else h
    let d := (processInteractive processResize m.root ⟨e1, h1.log⟩).1
    (({ m with eventData := d.eventData },
      { h1 with log := d.log ++ [.managerEmit "resize" d.eventData] }), .ok ())

/-- The method `onResize`. -/
def onResize (m : ResizeManager) (h : Host) (_event : Nat) :
    (ResizeManager × Host) × Except JSError Unit :=
  if m.element.isNone && m.fullscreen == false then ((m, h), .ok ())
  else
    let h1 := if m.autoPreventDefault then h.preventDefault _event else h
    if m.useResizeDoneTimeout then
      let h2 := if m.resizeTimeout != 0 then h1.clearInterval m.resizeTimeout else h1
      let (id, h3) := h2.setInterval _event RESIZE_DONE_TIMEOUT
      (({ m with resizeTimeout := id }, h3), .ok ())
    else _resizeEvent m h1 _event

/-- The callback `onResize` hands to `setInterval`. -/
def resizeDone (m : ResizeManager) (h : Host) (_event : Nat) :
    (ResizeManager × Host) × Except JSError Unit :=
  _resizeEvent m (h.clearInterval m.resizeTimeout) _event

end ResizeManager

/-! ## ResizeManager: vocabulary of the properties -/

namespace SceneNode

mutual
/-- The identities of all display objects of a tree. -/
def ids : SceneNode → List Nat
  | mk i _ _ _ _ cs => i :: idsList cs
/-- The identities of all display objects of a list of trees. -/
def idsList : List SceneNode → List Nat
  | [] => []
  | c :: cs => ids c ++ idsList cs
end

/-- `Shown r n`: the display object `n` belongs to the tree of `r`, and `n` and
all its ancestors up to `r` are visible. -/
inductive Shown : SceneNode → SceneNode → Prop where
  | self (r : SceneNode) : r.visible = true → Shown r r
  | child (r c n : SceneNode) : r.visible = true → c ∈ r.children → Shown c n → Shown r n

mutual
/-- The pre-order listing of the shown display objects of a tree: the object
first, then its children's listings, last child first; nothing for an invisible
object. -/
def shownPreorder : SceneNode → List SceneNode
  | mk i v r l m cs => if v then mk i v r l m cs :: shownPreorderRev cs else []
/-- The listings of a list of children, last child first. -/
def shownPreorderRev : List SceneNode → List SceneNode
  | [] => []
  | c :: cs => shownPreorderRev cs ++ shownPreorder c
end

/-- The event data after the display object was sent an event of the given
name: target and type set, the listeners run, then the member of that name. -/
def handle (n : SceneNode) (type : String) (e : EventData) : EventData :=
  let e2 := n.listeners type { e with target := some n.id, type := some type }
  match n.member type with
  | some handler => handler e2
  | none => e2

end SceneNode

namespace ResizeManager

/-- The display objects a traversal from `root` calls the callback on, in
order: the shown resizable objects in pre-order, children last child first. -/
def resizeOrder (root : Option SceneNode) : List SceneNode :=
  match root with
  | none => []
  | some r => (SceneNode.shownPreorder r).filter SceneNode.resizable

/-- The prefix of a list of display objects that ends with the first one whose
handlers leave the event stopped (the whole list when none does), the event
data being passed on from one object to the next. -/
def notified : List SceneNode → EventData → List SceneNode
  | [], _ => []
  | n :: rest, e =>
    n :: (if (n.handle "resize" e).stopped then [] else notified rest (n.handle "resize" e))

/-- The identities of all display objects of the scene graph under `root`. -/
def treeIds (root : Option SceneNode) : List Nat :=
  match root with
  | none => []
  | some r => r.ids

/-- The display objects that were sent an event, in order, by identity. -/
def received (log : List Effect) : List Nat :=
  log.filterMap (fun
    | .nodeEmit i _ _ => some i
    | _ => none)

end ResizeManager

namespace ResizeManager

/-! ## The host's event loop -/

/-- The manager together with its host. -/
abbrev World := ResizeManager × Host

/-- The expiry of a timer that was pending when the clock moved: when the timer
is still pending and due, it is re-armed one period later (it is an interval
timer) and its callback runs; an error the callback raises ends the callback
only. -/
def fire (w : World) (t : Timer) : World :=
  if t ∈ w.2.timers ∧ t.due ≤ w.2.now then
    let rearmed := w.2.timers.map
      (fun u => if u.id = t.id then { u with due := u.due + u.period } else u)
    (resizeDone w.1 { w.2 with timers := rearmed } t.event).1
  else w

/-- One unit of time passes: the clock advances and the pending timers that are
due expire, in the order they were set. -/
def tick (w : World) : World :=
  w.2.timers.foldl fire (w.1, { w.2 with now := w.2.now + 1 })

/-- The passing of `n` units of time. -/
def advance : Nat → World → World
  | 0, w => w
  | n + 1, w => advance n (tick w)

/-- The raw resize signal of the host carrying the DOM event `event`. -/
def signal (w : World) (event : Nat) : World :=
  (onResize w.1 w.2 event).1

/-- A sequence of raw resize signals, each given with the time elapsed since
the previous one (since the start, for the first) and its DOM event. -/
def run : World → List (Nat × Nat) → World
  | w, [] => w
  | w, (gap, event) :: rest => run (signal (advance gap w) event) rest

/-- The number of dispatch cycles the host has seen complete: the manager
emits `resize` once at the end of each. -/
def cycles (h : Host) : Nat :=
  h.log.countP Effect.isManagerEmit


/-- Debouncing is on and the manager has a size to read: fullscreen is on or
an element is set. -/
def Configured (m : ResizeManager) : Prop :=
  m.useResizeDoneTimeout = true ∧ (m.fullscreen = true ∨ m.element.isSome = true)

/-- No timer is pending. -/
def Idle (w : World) : Prop :=
  w.2.timers = []

/-- Exactly one timer is pending: the one the manager holds in `resizeTimeout`,
due in `r` units of time. -/
def ArmedFor (w : World) (r : Nat) : Prop :=
  ∃ t, w.2.timers = [t] ∧ t.id = w.1.resizeTimeout ∧ t.id ≠ 0 ∧ t.due = w.2.now + r

end ResizeManager

/-! ## Concrete scene graph and manager -/

/-- Listeners that leave the event data alone. -/
def quiet : String → EventData → EventData := fun _ e => e

/-- A display object without handler members. -/
def noMember : String → Option (EventData → EventData) := fun _ => none

/-- A display object whose `resize` member calls `stopPropagation`. -/
def stopOnResize : String → Option (EventData → EventData) :=
  fun t => if t = "resize" then some EventData.stopPropagation else none

/-- A scene graph: a visible root `0` that is not resizable, with children `1`
(resizable), `2` (resizable, invisible, with a resizable child `3`) and `4`
(resizable, with a resizable child `5` whose `resize` member stops the event). -/
def sampleScene : SceneNode :=
  .mk 0 true false quiet noMember
    [ .mk 1 true true quiet noMember [],
      .mk 2 false true quiet noMember [.mk 3 true true quiet noMember []],
      .mk 4 true true quiet noMember [.mk 5 true true quiet stopOnResize []] ]

/-- A fullscreen manager over the sample scene graph, as constructed. -/
def sampleManager : ResizeManager :=
  { root := some sampleScene, autoPreventDefault := true, fullscreen := true,
    element := none, resizeTimeout := 0, useResizeDoneTimeout := true,
    eventData := { stopped := false, target := none, type := none, data := none } }

/-- A manager with no element and fullscreen off, left stopped by an earlier
cycle. -/
def fixedManager : ResizeManager :=
  { sampleManager with
    fullscreen := false
    eventData := { stopped := true, target := some 5, type := some "resize", data := none } }

/-- A display object whose `resize` member empties the data field of the event
data it is handed. -/
def dropDataOnResize : String → Option (EventData → EventData) :=
  fun t => if t = "resize" then some (fun e => { e with data := none }) else none

/-- A fullscreen manager over a scene graph of one visible resizable display
object `1`, whose `resize` member empties the data field. -/
def dropDataManager : ResizeManager :=
  { sampleManager with root := some (.mk 1 true true quiet dropDataOnResize []) }

/-- A host with an 800 by 600 window, no timer and no effect yet. -/
def sampleHost : Host :=
  { innerWidth := .num 800, innerHeight := .num 600, now := 0, timersCreated := 0,
    timers := [], log := [] }

/-! ## Lemmas on numbers -/

namespace JSNum

@[simp] theorem isNaN_nan : isNaN nan = true := rfl
@[simp] theorem isNaN_num (q : ℚ) : isNaN (num q) = false := rfl

@[simp] theorem add_num (a b : ℚ) : num a + num b = num (a + b) := rfl
@[simp] theorem sub_num (a b : ℚ) : num a - num b = num (a - b) := rfl
@[simp] theorem mul_num (a b : ℚ) : num a * num b = num (a * b) := rfl
@[simp] theorem nan_sub (a : JSNum) : nan - a = nan := rfl
@[simp] theorem sub_nan (a : JSNum) : a - nan = nan := by cases a <;> rfl
@[simp] theorem nan_add (a : JSNum) : nan + a = nan := rfl
@[simp] theorem add_nan (a : JSNum) : a + nan = nan := by cases a <;> rfl

@[simp] theorem min_num (a b : ℚ) : min (num a) (num b) = num (Min.min a b) := rfl
@[simp] theorem max_num (a b : ℚ) : max (num a) (num b) = num (Max.max a b) := rfl
@[simp] theorem min_nan_left (a : JSNum) : min nan a = nan := rfl
@[simp] theorem min_nan_right (a : JSNum) : min a nan = nan := by cases a <;> rfl
@[simp] theorem max_nan_left (a : JSNum) : max nan a = nan := rfl
@[simp] theorem max_nan_right (a : JSNum) : max a nan = nan := by cases a <;> rfl

@[simp] theorem strictNe_num (a b : ℚ) : strictNe (num a) (num b) = decide (a ≠ b) := rfl
@[simp] theorem strictNe_nan_left (a : JSNum) : strictNe nan a = true := rfl
@[simp] theorem strictNe_nan_right (a : JSNum) : strictNe a nan = true := by cases a <;> rfl

@[simp] theorem le_num (a b : ℚ) : (num a ≤ num b) ↔ a ≤ b := Iff.rfl
@[simp] theorem not_nan_le (a : JSNum) : ¬ (nan ≤ a) := fun h => h
@[simp] theorem not_le_nan (a : JSNum) : ¬ (a ≤ nan) := by
  cases a <;> exact fun h => h

theorem isNaN_eq_false {a : JSNum} (h : a.isNaN = false) : ∃ q, a = num q := by
  cases a with
  | nan => simp at h
  | num q => exact ⟨q, rfl⟩

theorem exists_of_zero_le {a : JSNum} (h : num 0 ≤ a) : ∃ q, a = num q ∧ 0 ≤ q := by
  cases a with
  | nan => exact absurd h (not_le_nan _)
  | num q => exact ⟨q, rfl, h⟩

@[simp] theorem div_num (a b : ℚ) :
    num a / num b = if b = 0 then nan else num (a / b) := rfl

/-- A value that is not `NaN` is not strictly different from itself. -/
theorem strictNe_self {a : JSNum} (h : a.isNaN = false) : strictNe a a = false := by
  obtain ⟨q, rfl⟩ := isNaN_eq_false h
  simp

@[simp] theorem nan_mul (a : JSNum) : nan * a = nan := rfl
@[simp] theorem mul_nan (a : JSNum) : a * nan = nan := by cases a <;> rfl

/-- On numbers that are not `NaN`, `!==` is inequality. -/
theorem strictNe_iff {a b : JSNum} (ha : a.isNaN = false) (hb : b.isNaN = false) :
    strictNe a b = true ↔ a ≠ b := by
  obtain ⟨p, rfl⟩ := isNaN_eq_false ha
  obtain ⟨q, rfl⟩ := isNaN_eq_false hb
  simp

/-- The comparison `<=` is transitive. -/
theorem le_trans' {a b c : JSNum} (h1 : a ≤ b) (h2 : b ≤ c) : a ≤ c := by
  cases a <;> cases b <;> cases c <;>
    first
    | exact absurd h1 (not_nan_le _)
    | exact absurd h1 (not_le_nan _)
    | exact absurd h2 (not_nan_le _)
    | exact absurd h2 (not_le_nan _)
    | exact (le_num _ _).2 (le_trans ((le_num _ _).1 h1) ((le_num _ _).1 h2))

/-- Two numbers that are not strictly different are the same number. -/
theorem eq_of_strictNe_false {a b : JSNum} (h : strictNe a b = false) : a = b := by
  cases a <;> cases b <;> simp_all

end JSNum

/-! ## Lemmas on double precision -/

theorem roundNearestEven_intCast (n : ℤ) : roundNearestEven (n : ℚ) = n := by
  simp [roundNearestEven]

/-- Rounding to the nearest integer, once the floor `f` of `x` is known. -/
theorem roundNearestEven_eq (x : ℚ) (f : ℤ) (hf : (f : ℚ) ≤ x) (hf1 : x < f + 1) :
    roundNearestEven x =
      if x - f < 1 / 2 then f else if 1 / 2 < x - f then f + 1
      else if f % 2 = 0 then f else f + 1 := by
  have h : ⌊x⌋ = f := Int.floor_eq_iff.mpr ⟨hf, hf1⟩
  simp only [roundNearestEven, h]

theorem log_eq_of_bounds (q : ℚ) (k : ℤ) (hlo : (2 : ℚ) ^ k ≤ q) (hhi : q < 2 ^ (k + 1)) :
    Int.log 2 q = k := by
  have hq : 0 < q := lt_of_lt_of_le (by positivity) hlo
  have h1 : k ≤ Int.log 2 q :=
    (Int.zpow_le_iff_le_log (by norm_num) hq).mp (by exact_mod_cast hlo)
  have h2 : Int.log 2 q < k + 1 :=
    (Int.lt_zpow_iff_log_lt (by norm_num) hq).mp (by exact_mod_cast hhi)
  omega

theorem ulpExponent_eq (q : ℚ) (k : ℤ) (hk : -1022 ≤ k) (hlo : (2 : ℚ) ^ k ≤ |q|)
    (hhi : |q| < 2 ^ (k + 1)) : ulpExponent q = k - 52 := by
  unfold ulpExponent
  rw [log_eq_of_bounds |q| k hlo hhi]
  exact max_eq_left (by omega)

/-- The double nearest to a normal value `q` with `2 ^ k ≤ |q| < 2 ^ (k + 1)`,
once the floor `f` of `q / 2 ^ (k - 52)` is known. -/
theorem roundDouble_eq (q : ℚ) (k f : ℤ) (hk : -1022 ≤ k) (hlo : (2 : ℚ) ^ k ≤ |q|)
    (hhi : |q| < 2 ^ (k + 1)) (hf : (f : ℚ) ≤ q / 2 ^ (k - 52))
    (hf1 : q / 2 ^ (k - 52) < f + 1) (m : ℤ)
    (hm : (if q / 2 ^ (k - 52) - f < 1 / 2 then f else if 1 / 2 < q / 2 ^ (k - 52) - f then f + 1
      else if f % 2 = 0 then f else f + 1) = m)
    (hfin : |(m : ℚ) * 2 ^ (k - 52)| < 2 ^ (1024 : ℤ)) :
    roundDouble q = some ((m : ℚ) * 2 ^ (k - 52)) := by
  unfold roundDouble
  rw [ulpExponent_eq q k hk hlo hhi, roundNearestEven_eq _ f hf hf1, hm, if_pos hfin]

/-- An integer of magnitude below `2 ^ 53` is a double. -/
theorem roundDouble_intCast (n : ℤ) (h : |n| < 2 ^ 53) : roundDouble (n : ℚ) = some (n : ℚ) := by
  by_cases hn : n = 0
  · subst hn
    have h0 : ulpExponent ((0 : ℤ) : ℚ) = -52 := by
      simp [ulpExponent, Int.log]
    unfold roundDouble
    rw [h0]
    have hz : roundNearestEven (((0 : ℤ) : ℚ) / 2 ^ (-52 : ℤ)) = 0 := by
      simp [roundNearestEven]
    rw [hz, if_pos]
    · simp
    · simp only [Int.cast_zero, zero_mul, abs_zero]
      positivity
  · have hpos : (1 : ℚ) ≤ |(n : ℚ)| := by
      have h1 : (1 : ℤ) ≤ |n| := Int.one_le_abs hn
      exact_mod_cast h1
    have hlt : |(n : ℚ)| < 2 ^ (53 : ℤ) := by
      have h1 : ((|n| : ℤ) : ℚ) < ((2 ^ 53 : ℤ) : ℚ) := Int.cast_lt.mpr h
      rw [Int.cast_abs] at h1
      calc |(n : ℚ)| < ((2 ^ 53 : ℤ) : ℚ) := h1
        _ = 2 ^ (53 : ℤ) := by norm_num
    have hq : 0 < |(n : ℚ)| := lt_of_lt_of_le one_pos hpos
    have hk0 : 0 ≤ Int.log 2 |(n : ℚ)| :=
      (Int.zpow_le_iff_le_log (by norm_num) hq).mp (by simpa using hpos)
    have hk1 : Int.log 2 |(n : ℚ)| < 53 :=
      (Int.lt_zpow_iff_log_lt (by norm_num) hq).mp (by exact_mod_cast hlt)
    have he : ulpExponent (n : ℚ) = Int.log 2 |(n : ℚ)| - 52 := max_eq_left (by omega)
    obtain ⟨j, hj⟩ : ∃ j : ℕ, Int.log 2 |(n : ℚ)| - 52 = -(j : ℤ) :=
      ⟨(52 - Int.log 2 |(n : ℚ)|).toNat, by omega⟩
    have hdiv : (n : ℚ) / 2 ^ (-(j : ℤ)) = ((n * 2 ^ j : ℤ) : ℚ) := by
      rw [zpow_neg, zpow_natCast]
      push_cast
      field_simp
    unfold roundDouble
    rw [he, hj, hdiv, roundNearestEven_intCast]
    have hval : ((n * 2 ^ j : ℤ) : ℚ) * 2 ^ (-(j : ℤ)) = (n : ℚ) := by
      rw [zpow_neg, zpow_natCast]
      push_cast
      field_simp
    rw [hval, if_pos]
    calc |(n : ℚ)| < 2 ^ (53 : ℤ) := hlt
      _ ≤ 2 ^ (1024 : ℤ) := zpow_le_zpow_right₀ (by norm_num) (by norm_num)

theorem isDouble_intCast (n : ℤ) (h : |n| < 2 ^ 53) : (JSNum.num (n : ℚ)).IsDouble :=
  roundDouble_intCast n h

/-- The difference of two integers is computed without rounding when it is of
magnitude below `2 ^ 53`. -/
theorem subDouble_intCast (a b : ℤ) (h : |a - b| < 2 ^ 53) :
    JSNum.subDouble (.num (a : ℚ)) (.num (b : ℚ)) = some (.num (a : ℚ) - .num (b : ℚ)) := by
  show (roundDouble ((a : ℚ) - (b : ℚ))).map JSNum.num = some (JSNum.num ((a : ℚ) - (b : ℚ)))
  have h1 := roundDouble_intCast (a - b) h
  rw [Int.cast_sub] at h1
  rw [h1]
  rfl

/-- In double precision `a - (a - y)` is `y` when `y` is a double and `a - y`
is the exact difference. -/
theorem subDouble_sub_of_isDouble (a : ℚ) (y : JSNum) (hy : y.IsDouble) :
    JSNum.subDouble (.num a) (.num a - y) = some y := by
  cases y with
  | nan => rfl
  | num b =>
  have hb : roundDouble b = some b := hy
  show (roundDouble (a - (a - b))).map JSNum.num = some (JSNum.num b)
  rw [sub_sub_cancel, hb]
  rfl

/-- The rational `3539547832136499 / 2 ^ 46`, the double nearest to `50.3`, is
a double. -/
theorem roundDouble_frac :
    roundDouble (3539547832136499 / 70368744177664) = some (3539547832136499 / 70368744177664) := by
  rw [roundDouble_eq _ 5 7079095664272998 (by norm_num) (by norm_num [abs_of_pos])
    (by norm_num [abs_of_pos]) (by norm_num) (by norm_num) 7079095664272998 (by norm_num)
    (by norm_num [abs_of_pos])]
  norm_num

/-- The difference of `200` and the double `50.3` lies halfway between two
doubles and rounds to the even one, `2633550250849075 / 2 ^ 44`, the double
`149.7`. -/
theorem roundDouble_mirror :
    roundDouble (200 - 3539547832136499 / 70368744177664) =
      some (2633550250849075 / 17592186044416) := by
  rw [roundDouble_eq _ 7 5267100501698150 (by norm_num) (by norm_num [abs_of_pos])
    (by norm_num [abs_of_pos]) (by norm_num) (by norm_num) 5267100501698150 (by norm_num)
    (by norm_num [abs_of_pos])]
  norm_num

/-- The difference of `200` and the double `149.7` is a double,
`884886958034125 / 2 ^ 44`, which is `50.30000000000001`. -/
theorem roundDouble_back :
    roundDouble (200 - 2633550250849075 / 17592186044416) =
      some (884886958034125 / 17592186044416) := by
  rw [roundDouble_eq _ 5 7079095664273000 (by norm_num) (by norm_num [abs_of_pos])
    (by norm_num [abs_of_pos]) (by norm_num) (by norm_num) 7079095664273000 (by norm_num)
    (by norm_num [abs_of_pos])]
  norm_num

/-! ## Lemmas on the Scrollable operations -/

namespace Scrollable

/-- The method `_updateProgressSkin` writes the progress skin and nothing else. -/
theorem _updateProgressSkin_frame (s : Scrollable) :
    s._updateProgressSkin.state =
      { s with progressSkin := s._updateProgressSkin.state.progressSkin } := by
  rcases s with ⟨m, o, t, it, inv, st, sd, w, h, sk, ps⟩
  cases ps <;> cases o <;> cases sk <;> rfl

theorem _updateProgressSkin_thumb (s : Scrollable) :
    s._updateProgressSkin.state.thumb = s.thumb := by
  rw [_updateProgressSkin_frame]

theorem _updateProgressSkin_orientation (s : Scrollable) :
    s._updateProgressSkin.state.orientation = s.orientation := by
  rw [_updateProgressSkin_frame]

theorem _updateProgressSkin_maxExtent (s : Scrollable) :
    s._updateProgressSkin.state.maxExtent = s.maxExtent := by
  rw [_updateProgressSkin_frame]; rfl

theorem _updateProgressSkin_thumbPos (s : Scrollable) :
    s._updateProgressSkin.state.thumbPos = s.thumbPos := by
  rw [_updateProgressSkin_frame]; rfl

/-- With the track skin attached, or no progress skin, `_updateProgressSkin`
returns. -/
theorem _updateProgressSkin_ok (s : Scrollable) (h : s.SkinsSafe) :
    s._updateProgressSkin.result = .ok () := by
  rcases s with ⟨m, o, t, it, inv, st, sd, w, h, sk, ps⟩
  cases ps <;> cases o <;> cases sk <;> simp_all [SkinsSafe, _updateProgressSkin]

/-- With a progress skin and no track skin, `_updateProgressSkin` raises. -/
theorem _updateProgressSkin_error (s : Scrollable) (h : ¬ s.SkinsSafe) :
    s._updateProgressSkin.result = .error .typeError := by
  rcases s with ⟨m, o, t, it, inv, st, sd, w, h, sk, ps⟩
  cases ps <;> cases o <;> cases sk <;> simp_all [SkinsSafe, _updateProgressSkin]

@[simp] theorem withThumbPos_thumbPos (s : Scrollable) (c : JSNum) :
    (s.withThumbPos c).thumbPos = c := by
  rcases s with ⟨m, o, t, it, inv, st, sd, w, h, sk, ps⟩
  cases o <;> rfl

@[simp] theorem withThumbPos_maxExtent (s : Scrollable) (c : JSNum) :
    (s.withThumbPos c).maxExtent = s.maxExtent := by
  rcases s with ⟨m, o, t, it, inv, st, sd, w, h, sk, ps⟩
  cases o <;> rfl

@[simp] theorem withThumbPos_skinsSafe (s : Scrollable) (c : JSNum) :
    (s.withThumbPos c).SkinsSafe ↔ s.SkinsSafe := by
  rcases s with ⟨m, o, t, it, inv, st, sd, w, h, sk, ps⟩
  cases o <;> rfl

/-- A proposed active coordinate that is `NaN` is rejected: `moveThumb` returns
false and writes nothing. -/
theorem moveThumb_nan (s : Scrollable) (x y : JSNum)
    (h : (s.activeCoord x y).isNaN = true) : s.moveThumb x y = ⟨s, .ok false⟩ := by
  rcases s with ⟨m, o, t, it, inv, st, sd, w, h, sk, ps⟩
  cases o <;> simp_all [moveThumb, activeCoord]

/-- What `moveThumb` does with a proposed active coordinate that is not `NaN`:
it compares the clamped coordinate with the thumb's, and when they differ it
stores the clamped coordinate and calls `_updateProgressSkin`. -/
theorem moveThumb_num (s : Scrollable) (x y : JSNum)
    (h : (s.activeCoord x y).isNaN = false) :
    s.moveThumb x y =
      if JSNum.strictNe (s.clamped (s.activeCoord x y)) s.thumbPos then
        ⟨(s.withThumbPos (s.clamped (s.activeCoord x y)))._updateProgressSkin.state,
         (s.withThumbPos (s.clamped (s.activeCoord x y)))._updateProgressSkin.result.map
           (fun _ => true)⟩
      else ⟨s, .ok false⟩ := by
  rcases s with ⟨m, o, t, it, inv, st, sd, w, h, sk, ps⟩
  cases o <;> simp_all [moveThumb, activeCoord, clamped, maxExtent, thumbPos, withThumbPos]

/-- The clamped coordinate lies in `[0, maxExtent]` when the proposed one is a
number and `maxExtent` is a number that is not negative. -/
theorem clamped_inBounds (s : Scrollable) (p : JSNum) (hp : p.isNaN = false)
    (hmax : .num 0 ≤ s.maxExtent) :
    .num 0 ≤ s.clamped p ∧ s.clamped p ≤ s.maxExtent := by
  obtain ⟨q, rfl⟩ := JSNum.isNaN_eq_false hp
  obtain ⟨m, hm, hm0⟩ := JSNum.exists_of_zero_le hmax
  simp only [clamped, hm, JSNum.min_num, JSNum.max_num, JSNum.le_num]
  exact ⟨le_max_right _ _, max_le (min_le_right _ _) hm0⟩


/-- With the track skin attached, or no progress skin, `moveThumb` returns, and
it returns true exactly when the clamped coordinate differs from the thumb's. -/
theorem moveThumb_frame (s : Scrollable) (x y : JSNum) :
    ∃ c p, (s.moveThumb x y).state = { s.withThumbPos c with progressSkin := p } := by
  cases hn : (s.activeCoord x y).isNaN
  · rw [moveThumb_num s x y hn]
    split
    · exact ⟨_, _, _updateProgressSkin_frame _⟩
    · refine ⟨s.thumbPos, s.progressSkin, ?_⟩
      rcases s with ⟨m, o, t, it, inv, st, sd, w, h, sk, ps⟩
      cases o <;> rfl
  · rw [moveThumb_nan s x y hn]
    refine ⟨s.thumbPos, s.progressSkin, ?_⟩
    rcases s with ⟨m, o, t, it, inv, st, sd, w, h, sk, ps⟩
    cases o <;> rfl

theorem moveThumb_result (s : Scrollable) (x y : JSNum) (hs : s.SkinsSafe)
    (h : (s.activeCoord x y).isNaN = false) :
    (s.moveThumb x y).result =
      .ok (JSNum.strictNe (s.clamped (s.activeCoord x y)) s.thumbPos) := by
  rw [moveThumb_num s x y h]
  split
  · rename_i hne
    simp [_updateProgressSkin_ok _ ((withThumbPos_skinsSafe s _).2 hs), Except.map, hne]
  · rename_i hne
    simp at hne
    simp [hne]

/-- The setter of `inverse`, for a new value, in terms of `moveThumb`: the
proposed position is `(0, extent - thumbPos)` in both orientations. -/
theorem setInverse_eq (s : Scrollable) (i : Bool) (hi : i ≠ s._inverse) :
    s.setInverse i =
      match ({ s with _inverse := i }.moveThumb (.num 0) (s.extent - s.thumbPos)).result with
      | .error e =>
        ⟨({ s with _inverse := i }.moveThumb (.num 0) (s.extent - s.thumbPos)).state, .error e⟩
      | .ok _ =>
        ⟨{ ({ s with _inverse := i }.moveThumb (.num 0) (s.extent - s.thumbPos)).state with
            invalidTrack := true,
            thumb := { ({ s with _inverse := i }.moveThumb (.num 0)
              (s.extent - s.thumbPos)).state.thumb with invalidTrack := true } }, .ok ()⟩ := by
  rcases s with ⟨m, o, t, it, inv, st, sd, w, h, sk, ps⟩
  cases o <;> (unfold setInverse; rw [if_pos hi]; rfl)

/-- The thumb's active coordinate after the setter of `inverse` is the one
`moveThumb` left. -/
theorem setInverse_thumbPos (s : Scrollable) (i : Bool) (hi : i ≠ s._inverse) :
    (s.setInverse i).state.thumbPos =
      ({ s with _inverse := i }.moveThumb (.num 0) (s.extent - s.thumbPos)).state.thumbPos := by
  rw [setInverse_eq s i hi]
  split
  · rfl
  · generalize ({ s with _inverse := i }.moveThumb (.num 0) (s.extent - s.thumbPos)).state = t
    rcases t with ⟨m, o, t, it, inv, st, sd, w, h, sk, ps⟩
    cases o <;> rfl

theorem moveThumb_thumbPos (s : Scrollable) (x y : JSNum)
    (h : (s.activeCoord x y).isNaN = false) :
    (s.moveThumb x y).state.thumbPos =
      if JSNum.strictNe (s.clamped (s.activeCoord x y)) s.thumbPos then
        s.clamped (s.activeCoord x y)
      else s.thumbPos := by
  rw [moveThumb_num s x y h]
  split
  · simp [_updateProgressSkin_thumbPos]
  · rfl

/-- After `moveThumb` with a proposed coordinate that is not `NaN`, the thumb's
active coordinate is the clamped coordinate. -/
theorem moveThumb_thumbPos_eq (s : Scrollable) (x y : JSNum)
    (h : (s.activeCoord x y).isNaN = false) :
    (s.moveThumb x y).state.thumbPos = s.clamped (s.activeCoord x y) := by
  rw [moveThumb_thumbPos s x y h]
  split
  · rfl
  · rename_i hne
    exact (JSNum.eq_of_strictNe_false (by simpa using hne)).symm

theorem clamped_eq_self (s : Scrollable) (p : JSNum) (h0 : .num 0 ≤ p)
    (h1 : p ≤ s.maxExtent) : s.clamped p = p := by
  unfold clamped
  cases p with
  | nan => exact absurd h0 (JSNum.not_le_nan _)
  | num p =>
    cases hm : s.maxExtent with
    | nan => rw [hm] at h1; exact absurd h1 (JSNum.not_le_nan _)
    | num m =>
      rw [hm] at h1
      simp only [JSNum.le_num] at h0 h1
      simp [h0, h1]

theorem moveThumb_inverse (s : Scrollable) (x y : JSNum) :
    (s.moveThumb x y).state._inverse = s._inverse := by
  obtain ⟨c, p, h⟩ := moveThumb_frame s x y
  rw [h]
  rcases s with ⟨m, o, t, it, inv, st, sd, w, h, sk, ps⟩
  cases o <;> rfl

theorem moveThumb_orientation (s : Scrollable) (x y : JSNum) :
    (s.moveThumb x y).state.orientation = s.orientation := by
  obtain ⟨c, p, h⟩ := moveThumb_frame s x y
  rw [h]
  rcases s with ⟨m, o, t, it, inv, st, sd, w, h, sk, ps⟩
  cases o <;> rfl

theorem thumbPos_vertical {s : Scrollable} (h : s.orientation = .vertical) :
    s.thumbPos = s.thumb.y := by simp [thumbPos, h]

theorem extent_vertical {s : Scrollable} (h : s.orientation = .vertical) :
    s.extent = s.height := by simp [extent, h]

theorem maxExtent_vertical {s : Scrollable} (h : s.orientation = .vertical) :
    s.maxExtent = s.maxHeight := by simp [maxExtent, h]

theorem activeCoord_vertical {s : Scrollable} (h : s.orientation = .vertical) (x y : JSNum) :
    s.activeCoord x y = y := by simp [activeCoord, h]

theorem moveThumb_maxExtent (s : Scrollable) (x y : JSNum) :
    (s.moveThumb x y).state.maxExtent = s.maxExtent := by
  obtain ⟨c, p, h⟩ := moveThumb_frame s x y
  rw [h]
  rcases s with ⟨m, o, t, it, inv, st, sd, w, h, sk, ps⟩
  cases o <;> rfl

theorem moveThumb_extent (s : Scrollable) (x y : JSNum) :
    (s.moveThumb x y).state.extent = s.extent := by
  obtain ⟨c, p, h⟩ := moveThumb_frame s x y
  rw [h]
  rcases s with ⟨m, o, t, it, inv, st, sd, w, h, sk, ps⟩
  cases o <;> rfl

theorem setInverse_orientation (s : Scrollable) (i : Bool) :
    (s.setInverse i).state.orientation = s.orientation := by
  by_cases hi : i = s._inverse
  · simp [setInverse, hi]
  · rw [setInverse_eq s i hi]
    split <;> exact moveThumb_orientation _ _ _

theorem setInverse_extent (s : Scrollable) (i : Bool) :
    (s.setInverse i).state.extent = s.extent := by
  by_cases hi : i = s._inverse
  · simp [setInverse, hi]
  · rw [setInverse_eq s i hi]
    split
    · exact moveThumb_extent _ _ _
    · exact (moveThumb_extent { s with _inverse := i } _ _)

theorem setInverse_maxExtent (s : Scrollable) (i : Bool) :
    (s.setInverse i).state.maxExtent = s.maxExtent := by
  by_cases hi : i = s._inverse
  · simp [setInverse, hi]
  · rw [setInverse_eq s i hi]
    split
    · exact moveThumb_maxExtent _ _ _
    · exact (moveThumb_maxExtent { s with _inverse := i } _ _)

theorem setInverse_inverse (s : Scrollable) (i : Bool) :
    (s.setInverse i).state._inverse = i := by
  by_cases hi : i = s._inverse
  · simp [setInverse, hi]
  · rw [setInverse_eq s i hi]
    split
    · exact moveThumb_inverse _ _ _
    · exact (moveThumb_inverse { s with _inverse := i } _ _)

/-- In vertical orientation the setter of `inverse`, for a new value, leaves
the thumb at the clamped mirrored coordinate, whether or not the progress-skin
update raises. -/
theorem setInverse_thumbPos_vertical (s : Scrollable) (i : Bool)
    (hv : s.orientation = .vertical) (hi : i ≠ s._inverse)
    (hn : (s.extent - s.thumbPos).isNaN = false) :
    (s.setInverse i).state.thumbPos = s.clamped (s.extent - s.thumbPos) := by
  have hv1 : ({ s with _inverse := i } : Scrollable).orientation = .vertical := hv
  have ha := activeCoord_vertical hv1 (.num 0) (s.extent - s.thumbPos)
  rw [setInverse_thumbPos s i hi, moveThumb_thumbPos_eq _ _ _ (by rw [ha]; exact hn), ha]
  rfl

/-! ## Claims on the Scrollable control -/

/-- C1, amended. When `maxExtent` (`maxWidth()` when horizontal, `maxHeight()`
when vertical) is a number that is not negative, and the proposed coordinate on
the active axis is a number or the thumb is already within bounds, the thumb's
coordinate on the active axis lies in `[0, maxExtent]` after `moveThumb`. -/
theorem moveThumb_within_bounds (s : Scrollable) (x y : JSNum)
    (hmax : .num 0 ≤ s.maxExtent)
    (h : (s.activeCoord x y).isNaN = false ∨ s.InBounds) :
    (s.moveThumb x y).state.InBounds := by
  unfold InBounds
  rw [moveThumb_maxExtent]
  cases hn : (s.activeCoord x y).isNaN
  · rw [moveThumb_thumbPos_eq s x y hn]
    exact clamped_inBounds s _ hn hmax
  · rw [moveThumb_nan s x y hn]
    rcases h with h | h
    · rw [hn] at h; cases h
    · exact h

/-- C1, witness: proposing `x = 500` on the 200 wide bar leaves the thumb at
`180`, within `[0, 180]`. -/
theorem moveThumb_within_bounds_witness :
    JSNum.num 0 ≤ hbar.maxExtent ∧ (hbar.moveThumb (.num 500) (.num 0)).state.InBounds :=
  ⟨by norm_num [hbar, maxExtent, maxWidth, width],
   moveThumb_within_bounds hbar (.num 500) (.num 0)
     (by norm_num [hbar, maxExtent, maxWidth, width]) (Or.inl rfl)⟩

/-- C1, counterexample. With a thumb wider than the bar `maxWidth()` is `-10`
and `moveThumb(5, 0)` leaves the thumb at `0`, outside the empty interval
`[0, -10]`; and a `NaN` proposal leaves a thumb that is out of bounds (at `150`
with `maxWidth() = 80`) where it is. -/
theorem moveThumb_out_of_bounds :
    (narrowBar.maxExtent = .num (-10) ∧
      (narrowBar.moveThumb (.num 5) (.num 0)).state.thumbPos = .num 0 ∧
      ¬ (narrowBar.moveThumb (.num 5) (.num 0)).state.InBounds) ∧
    (shrunkBar.maxExtent = .num 80 ∧
      (shrunkBar.moveThumb .nan (.num 0)).state.thumbPos = .num 150 ∧
      ¬ (shrunkBar.moveThumb .nan (.num 0)).state.InBounds) := by
  refine ⟨⟨?_, ?_, ?_⟩, ?_, ?_, ?_⟩ <;>
    norm_num [narrowBar, shrunkBar, hbar, InBounds, maxExtent, thumbPos, maxWidth, width,
      moveThumb, _updateProgressSkin]

/-- C2. A proposed coordinate on the active axis that is `NaN` makes
`moveThumb` return false and leave the whole object as it was, whatever the
coordinate on the inactive axis. -/
theorem moveThumb_rejects_nan (s : Scrollable) (x y : JSNum)
    (h : (s.activeCoord x y).isNaN = true) :
    (s.moveThumb x y).result = .ok false ∧ (s.moveThumb x y).state = s := by
  rw [moveThumb_nan s x y h]
  exact ⟨rfl, rfl⟩

/-- C2, witness: `moveThumb(NaN, 7)` on the horizontal bar. -/
theorem moveThumb_rejects_nan_witness :
    (hbar.activeCoord .nan (.num 7)).isNaN = true ∧
    (hbar.moveThumb .nan (.num 7)).result = .ok false ∧
    (hbar.moveThumb .nan (.num 7)).state = hbar :=
  ⟨rfl, moveThumb_rejects_nan hbar .nan (.num 7) rfl⟩

/-- What C3 says, for the objects on which `_updateProgressSkin` cannot raise
(track skin attached, or no progress skin): with `c` the clamped coordinate,
`moveThumb` returns true exactly when `c !== thumbPos`; when it returns true
the object is the one `_updateProgressSkin` leaves once the thumb is at `c`;
when it returns false the object is unchanged. -/
theorem moveThumb_returns (s : Scrollable) (x y : JSNum) (hs : s.SkinsSafe)
    (h : (s.activeCoord x y).isNaN = false) :
    ((s.moveThumb x y).result = .ok true ↔
      JSNum.strictNe (s.clamped (s.activeCoord x y)) s.thumbPos = true) ∧
    ((s.moveThumb x y).result = .ok true →
      (s.moveThumb x y).state.thumbPos = s.clamped (s.activeCoord x y) ∧
      (s.moveThumb x y).state =
        (s.withThumbPos (s.clamped (s.activeCoord x y)))._updateProgressSkin.state) ∧
    ((s.moveThumb x y).result = .ok false → (s.moveThumb x y).state = s) := by
  have hr := moveThumb_result s x y hs h
  have hp := moveThumb_thumbPos_eq s x y h
  rw [hr]
  refine ⟨by simp, ?_, ?_⟩
  · intro ht
    refine ⟨hp, ?_⟩
    rw [moveThumb_num s x y h, if_pos (by simpa using ht)]
  · intro hf
    rw [moveThumb_num s x y h, if_neg (by simpa using hf)]

/-- C3, at the failing input. On the bar with a progress skin and no track
skin, `moveThumb(60, 0)` finds the clamped coordinate `60` different from the
thumb's `50`, writes `thumb.x = 60` and the progress skin's `x` and `width`, and
then raises on `this.skin.height` instead of returning true. -/
theorem moveThumb_raises_without_track :
    JSNum.strictNe (noTrackBar.clamped (noTrackBar.activeCoord (.num 60) (.num 0)))
      noTrackBar.thumbPos = true ∧
    (noTrackBar.moveThumb (.num 60) (.num 0)).result = .error .typeError ∧
    (noTrackBar.moveThumb (.num 60) (.num 0)).state.thumb.x = .num 60 ∧
    (noTrackBar.moveThumb (.num 60) (.num 0)).state.progressSkin =
      some { x := .num 0, y := .num 0, width := .num 70, height := .num 20 } := by
  refine ⟨?_, ?_, ?_, ?_⟩ <;>
    norm_num [noTrackBar, hbar, clamped, activeCoord, maxExtent, thumbPos, maxWidth, width,
      moveThumb, _updateProgressSkin, inverse, Except.map]

/-- C8, amended. In vertical orientation, on an object on which the progress
skin update cannot raise (track skin attached, or no progress skin) and whose
mirrored coordinate `height - thumb.y` is a number, setting `inverse` to a
value different from the current one returns, moves the thumb to the mirrored
coordinate clamped to `[0, maxHeight()]`, which is the mirrored coordinate
itself when that lies within `[0, maxHeight()]`, marks the track and the thumb
invalid, and stores the new value. -/
theorem setInverse_vertical (s : Scrollable) (i : Bool)
    (hv : s.orientation = .vertical) (hi : i ≠ s._inverse) (hs : s.SkinsSafe)
    (hn : (s.height - s.thumb.y).isNaN = false) :
    (s.setInverse i).result = .ok () ∧
    (s.setInverse i).state.thumb.y = s.clamped (s.height - s.thumb.y) ∧
    (.num 0 ≤ s.height - s.thumb.y → s.height - s.thumb.y ≤ s.maxHeight →
      (s.setInverse i).state.thumb.y = s.height - s.thumb.y) ∧
    (s.setInverse i).state.invalidTrack = true ∧
    (s.setInverse i).state.thumb.invalidTrack = true ∧
    (s.setInverse i).state._inverse = i := by
  have hv1 : ({ s with _inverse := i } : Scrollable).orientation = .vertical := hv
  have ha := activeCoord_vertical hv1 (.num 0) (s.height - s.thumb.y)
  have hy := moveThumb_thumbPos_eq { s with _inverse := i } (.num 0) (s.height - s.thumb.y)
    (by rw [ha]; exact hn)
  have hr := moveThumb_result { s with _inverse := i } (.num 0) (s.height - s.thumb.y) hs
    (by rw [ha]; exact hn)
  have hinv := moveThumb_inverse { s with _inverse := i } (.num 0) (s.height - s.thumb.y)
  rw [thumbPos_vertical ((moveThumb_orientation _ _ _).trans hv1), ha] at hy
  have hc : ({ s with _inverse := i } : Scrollable).clamped (s.height - s.thumb.y)
      = s.clamped (s.height - s.thumb.y) := rfl
  rw [hc] at hy
  rw [setInverse_eq s i hi, extent_vertical hv, thumbPos_vertical hv, hr]
  refine ⟨rfl, hy, ?_, rfl, rfl, hinv⟩
  intro h0 h1
  rw [← maxExtent_vertical hv] at h1
  exact hy.trans (clamped_eq_self _ _ h0 h1)


/-- C8, witness: on the vertical bar 200 high with the thumb at `y = 50`,
setting `inverse` moves the thumb to `y = 150`. -/
theorem setInverse_vertical_witness :
    (vbarMid.setInverse true).state.thumb.y = .num 150 ∧
    (vbarMid.setInverse true).state.invalidTrack = true ∧
    (vbarMid.setInverse true).state.thumb.invalidTrack = true :=
  have h := setInverse_vertical vbarMid true rfl (by decide) (Or.inl rfl) rfl
  ⟨(h.2.2.1 (by norm_num [vbarMid, vbar, height])
      (by norm_num [vbarMid, vbar, height, maxHeight])).trans
      (by norm_num [vbarMid, vbar, height]),
    h.2.2.2.1, h.2.2.2.2.1⟩

/-- C8, counterexample. On the vertical bar 200 high with a 20 high thumb at
`y = 0` the mirrored coordinate is `200` and setting `inverse` leaves the thumb
at `180`; on the horizontal bar 200 wide with the thumb at `x = 50` the
mirrored coordinate is `150` and setting `inverse` leaves the thumb at `0`. -/
theorem setInverse_not_mirrored :
    (vbar.extent - vbar.thumbPos = .num 200 ∧
      (vbar.setInverse true).state.thumbPos = .num 180) ∧
    (hbar.extent - hbar.thumbPos = .num 150 ∧
      (hbar.setInverse true).state.thumbPos = .num 0) := by
  refine ⟨⟨?_, ?_⟩, ?_, ?_⟩ <;>
    norm_num [vbar, hbar, extent, thumbPos, width, height, maxWidth, maxHeight, inverse,
      setInverse, moveThumb, _updateProgressSkin, Except.map]

/-- In vertical orientation, with `thumb.y` in `[thumb.height, maxHeight()]`:
setting `inverse` to the opposite value leaves the thumb at `height - thumb.y`
and the height as it was, and setting it back leaves the thumb at `thumb.y`,
all differences being the exact ones. -/
theorem toggle_twice_vertical (s : Scrollable)
    (hv : s.orientation = .vertical) (h0 : .num 0 ≤ s.thumb.height)
    (hlo : s.thumb.height ≤ s.thumb.y) (hhi : s.thumb.y ≤ s.maxHeight) :
    (s.setInverse (!s._inverse)).state.thumb.y = s.height - s.thumb.y ∧
    (s.setInverse (!s._inverse)).state.height = s.height ∧
    ((s.setInverse (!s._inverse)).state.setInverse s._inverse).state.thumb.y = s.thumb.y := by
  have hvt := (setInverse_orientation s (!s._inverse)).trans hv
  have hvtt := (setInverse_orientation _ s._inverse).trans hvt
  rw [← thumbPos_vertical hvtt, ← thumbPos_vertical hv, ← thumbPos_vertical hvt,
    ← extent_vertical hv, ← extent_vertical hvt]
  rw [← thumbPos_vertical hv] at hlo hhi
  rw [← maxExtent_vertical hv] at hhi
  have hme : s.maxExtent = s.extent - s.thumb.height := by
    rw [maxExtent_vertical hv, extent_vertical hv]; rfl
  rw [hme] at hhi
  obtain ⟨th, hth, hth0⟩ := JSNum.exists_of_zero_le h0
  rw [hth] at hlo hhi hme
  cases hy : s.thumbPos with
  | nan => rw [hy] at hlo; exact absurd hlo (JSNum.not_le_nan _)
  | num y =>
  cases he : s.extent with
  | nan => rw [hy, he] at hhi; exact absurd hhi (JSNum.not_le_nan _)
  | num e =>
  rw [hy] at hlo
  rw [hy, he] at hhi
  rw [he] at hme
  simp only [JSNum.le_num, JSNum.sub_num] at hlo hhi hme
  have h1 : (s.setInverse (!s._inverse)).state.thumbPos = .num (e - y) := by
    rw [setInverse_thumbPos_vertical s _ hv (by simp) (by rw [he, hy]; rfl), he, hy]
    apply clamped_eq_self
    · simp only [JSNum.sub_num, JSNum.le_num]; linarith
    · rw [hme]; simp only [JSNum.sub_num, JSNum.le_num]; linarith
  have hi2 : s._inverse ≠ (s.setInverse (!s._inverse)).state._inverse := by
    rw [setInverse_inverse]; simp
  refine ⟨by rw [h1, JSNum.sub_num], by rw [setInverse_extent, he], ?_⟩
  rw [setInverse_thumbPos_vertical _ _ hvt hi2 (by rw [setInverse_extent, h1, he]; rfl),
    setInverse_extent, h1, he]
  have hc : ∀ p, (s.setInverse (!s._inverse)).state.clamped p = s.clamped p := by
    intro p; unfold clamped; rw [setInverse_maxExtent]
  rw [hc, JSNum.sub_num, sub_sub_cancel]
  apply clamped_eq_self
  · simp only [JSNum.le_num]; linarith
  · rw [hme]; simp only [JSNum.le_num]; linarith

/-- C9, amended. In vertical orientation, when the thumb's height is not
negative, `thumb.y` is a double in `[thumb.height, maxHeight()]` and the
subtraction `height - thumb.y` does not round (the exact difference is a
double), setting `inverse` to the opposite value and then back to the original
value restores `thumb.y` exactly: in double precision the difference
`height - thumb.y` that the first call hands to `moveThumb` is the coordinate the
thumb takes, the difference the second call hands over is the original
`thumb.y`, and that is where the thumb ends. -/
theorem setInverse_twice_vertical (s : Scrollable)
    (hv : s.orientation = .vertical) (h0 : .num 0 ≤ s.thumb.height)
    (hlo : s.thumb.height ≤ s.thumb.y) (hhi : s.thumb.y ≤ s.maxHeight)
    (hy : s.thumb.y.IsDouble)
    (hmir : JSNum.subDouble s.height s.thumb.y = some (s.height - s.thumb.y)) :
    JSNum.subDouble s.height s.thumb.y = some (s.setInverse (!s._inverse)).state.thumb.y ∧
    JSNum.subDouble (s.setInverse (!s._inverse)).state.height
      (s.setInverse (!s._inverse)).state.thumb.y = some s.thumb.y ∧
    ((s.setInverse (!s._inverse)).state.setInverse s._inverse).state.thumb.y = s.thumb.y := by
  obtain ⟨h1, h2, h3⟩ := toggle_twice_vertical s hv h0 hlo hhi
  refine ⟨by rw [h1, hmir], ?_, h3⟩
  rw [h1, h2]
  cases hh : s.height with
  | nan =>
    have hm : s.maxHeight = .nan := by unfold maxHeight; rw [hh]; rfl
    rw [hm] at hhi
    exact absurd hhi (JSNum.not_le_nan _)
  | num a => exact subDouble_sub_of_isDouble a _ hy

/-- C9, witness: on the vertical bar 200 high with a 20 high thumb at `y = 50`
the differences `200 - 50` and `200 - 150` do not round, and the thumb is back at
`y = 50` after the two calls. -/
theorem setInverse_twice_vertical_witness :
    JSNum.subDouble vbarMid.height vbarMid.thumb.y =
      some (vbarMid.setInverse (!vbarMid._inverse)).state.thumb.y ∧
    JSNum.subDouble (vbarMid.setInverse (!vbarMid._inverse)).state.height
      (vbarMid.setInverse (!vbarMid._inverse)).state.thumb.y = some (.num 50) ∧
    ((vbarMid.setInverse (!vbarMid._inverse)).state.setInverse vbarMid._inverse).state.thumb.y
      = .num 50 :=
  setInverse_twice_vertical vbarMid rfl (by norm_num [vbarMid, vbar])
    (by norm_num [vbarMid, vbar]) (by norm_num [vbarMid, vbar, maxHeight, height])
    (by simpa [vbarMid, vbar] using isDouble_intCast 50 (by norm_num))
    (by simpa [vbarMid, vbar, height] using subDouble_intCast 200 50 (by norm_num))

/-- C9, counterexample. The vertical bar 200 high with a 20 high thumb at
`y = 0` is within bounds, and toggling `inverse` twice leaves the thumb at
`y = 20`; the horizontal bar with the thumb at `x = 50` is within bounds, and
toggling `inverse` twice leaves the thumb at `x = 0`; on the vertical bar with
the thumb at the double `50.3`, within bounds and not closer to the start than
the thumb is high, the difference `height - thumb.y` rounds to the double `149.7`
and the difference of `height` and that is the double `50.30000000000001`, not
the original `thumb.y`. -/
theorem setInverse_twice_moves :
    (vbar.InBounds ∧ vbar.thumbPos = .num 0 ∧
      ((vbar.setInverse true).state.setInverse false).state.thumbPos = .num 20) ∧
    (hbar.InBounds ∧ hbar.thumbPos = .num 50 ∧
      ((hbar.setInverse true).state.setInverse false).state.thumbPos = .num 0) ∧
    (vbarFrac.InBounds ∧ vbarFrac.thumb.height ≤ vbarFrac.thumb.y ∧
      vbarFrac.thumb.y.IsDouble ∧
      JSNum.subDouble vbarFrac.height vbarFrac.thumb.y =
        some (.num (2633550250849075 / 17592186044416)) ∧
      JSNum.subDouble vbarFrac.height (.num (2633550250849075 / 17592186044416)) =
        some (.num (884886958034125 / 17592186044416)) ∧
      JSNum.num (884886958034125 / 17592186044416) ≠ vbarFrac.thumb.y) := by
  refine ⟨⟨?_, ?_, ?_⟩, ⟨?_, ?_, ?_⟩, ?_, ?_, ?_, ?_, ?_, ?_⟩
  · norm_num [vbar, InBounds, maxExtent, thumbPos, height, maxHeight]
  · norm_num [vbar, thumbPos]
  · norm_num [vbar, thumbPos, height, maxHeight, setInverse, moveThumb, _updateProgressSkin,
      Except.map]
  · norm_num [hbar, InBounds, maxExtent, thumbPos, width, maxWidth]
  · norm_num [hbar, thumbPos]
  · norm_num [hbar, thumbPos, width, maxWidth, setInverse, moveThumb, _updateProgressSkin,
      Except.map]
  · norm_num [vbarFrac, vbar, InBounds, maxExtent, thumbPos, height, maxHeight]
  · norm_num [vbarFrac, vbar]
  · exact roundDouble_frac
  · show (roundDouble (200 - 3539547832136499 / 70368744177664)).map JSNum.num = _
    rw [roundDouble_mirror]
    rfl
  · show (roundDouble (200 - 2633550250849075 / 17592186044416)).map JSNum.num = _
    rw [roundDouble_back]
    rfl
  · norm_num [vbarFrac, vbar]

theorem activeCoord_congr {s t : Scrollable} (h : t.orientation = s.orientation)
    (x y : JSNum) : t.activeCoord x y = s.activeCoord x y := by
  simp [activeCoord, h]

theorem clamped_congr {s t : Scrollable} (h : t.maxExtent = s.maxExtent) (p : JSNum) :
    t.clamped p = s.clamped p := by
  simp [clamped, h]

theorem clamped_isNaN (s : Scrollable) (p : JSNum) (hp : p.isNaN = false)
    (hmax : s.maxExtent.isNaN = false) : (s.clamped p).isNaN = false := by
  obtain ⟨q, rfl⟩ := JSNum.isNaN_eq_false hp
  obtain ⟨m, hm⟩ := JSNum.isNaN_eq_false hmax
  simp [clamped, hm]

/-- C10, amended. When `maxExtent` is a number, a second call `moveThumb(p)`
made immediately after a first call with the same numeric `p` returns false and
leaves the object exactly as the first call left it. -/
theorem moveThumb_idempotent (s : Scrollable) (x y : JSNum)
    (hmax : s.maxExtent.isNaN = false) (hp : (s.activeCoord x y).isNaN = false) :
    ((s.moveThumb x y).state.moveThumb x y).result = .ok false ∧
    ((s.moveThumb x y).state.moveThumb x y).state = (s.moveThumb x y).state := by
  have ha := activeCoord_congr (moveThumb_orientation s x y) x y
  have hc := clamped_congr (moveThumb_maxExtent s x y) (s.activeCoord x y)
  have ht := moveThumb_thumbPos_eq s x y hp
  have hn := JSNum.strictNe_self (clamped_isNaN s _ hp hmax)
  rw [moveThumb_num _ x y (by rw [ha]; exact hp), ha, hc, ht, hn]
  exact ⟨rfl, rfl⟩

/-- C10, witness: `moveThumb(500, 0)` twice on the 200 wide bar. -/
theorem moveThumb_idempotent_witness :
    ((hbar.moveThumb (.num 500) (.num 0)).state.moveThumb (.num 500) (.num 0)).result
      = .ok false ∧
    ((hbar.moveThumb (.num 500) (.num 0)).state.moveThumb (.num 500) (.num 0)).state
      = (hbar.moveThumb (.num 500) (.num 0)).state :=
  moveThumb_idempotent hbar (.num 500) (.num 0) rfl rfl

/-- C10, counterexample. On the bar whose width is not a number `maxWidth()` is
`NaN`, the clamped coordinate is `NaN`, and `moveThumb(5, 0)` returns true the
first time and true again the second time. -/
theorem moveThumb_not_idempotent :
    unsizedBar.maxExtent = .nan ∧
    (unsizedBar.moveThumb (.num 5) (.num 0)).result = .ok true ∧
    ((unsizedBar.moveThumb (.num 5) (.num 0)).state.moveThumb (.num 5) (.num 0)).result
      = .ok true := by
  refine ⟨?_, ?_, ?_⟩ <;>
    norm_num [unsizedBar, hbar, maxExtent, maxWidth, width, moveThumb, _updateProgressSkin,
      inverse, Except.map]

theorem NumericGeometry.thumbPos {s : Scrollable} (h : s.NumericGeometry) :
    s.thumbPos.isNaN = false := by
  obtain ⟨-, -, hx, hy, -, -⟩ := h
  unfold Scrollable.thumbPos
  cases s.orientation <;> assumption

theorem NumericGeometry.maxExtent {s : Scrollable} (h : s.NumericGeometry) :
    s.maxExtent.isNaN = false := by
  obtain ⟨hw, hh, -, -, htw, hth⟩ := h
  obtain ⟨w, hw⟩ := JSNum.isNaN_eq_false hw
  obtain ⟨h', hh⟩ := JSNum.isNaN_eq_false hh
  obtain ⟨tw, htw⟩ := JSNum.isNaN_eq_false htw
  obtain ⟨th, hth⟩ := JSNum.isNaN_eq_false hth
  unfold Scrollable.maxExtent maxWidth maxHeight width height
  cases s.orientation <;> simp [hw, hh, htw, hth]

/-- What `moveThumb` returns: true or false, or a `TypeError`. -/
theorem moveThumb_result_general (s : Scrollable) (x y : JSNum)
    (h : (s.activeCoord x y).isNaN = false) :
    (s.moveThumb x y).result =
      if JSNum.strictNe (s.clamped (s.activeCoord x y)) s.thumbPos then
        (if s.SkinsSafe then .ok true else .error .typeError)
      else .ok false := by
  rw [moveThumb_num s x y h]
  split
  · by_cases hs : s.SkinsSafe
    · rw [_updateProgressSkin_ok _ ((withThumbPos_skinsSafe s _).2 hs)]
      rw [if_pos hs]; rfl
    · rw [_updateProgressSkin_error _ (fun h' => hs ((withThumbPos_skinsSafe s _).1 h'))]
      rw [if_neg hs]; rfl
  · rfl

/-- The candidate position of `handleWheel` on the active axis. -/
theorem activeCoord_wheel (s : Scrollable) (d : JSNum) :
    s.activeCoord (s.thumb.x - d) (s.thumb.y - d) = s.thumbPos - d := by
  unfold activeCoord Scrollable.thumbPos
  cases s.orientation <;> rfl

/-- The object `handleWheel` leaves is the one `moveThumb` leaves. -/
theorem handleWheel_state (s : Scrollable) (delta : JSNum) :
    (s.handleWheel delta).state =
      (s.moveThumb (s.thumb.x - delta * s.scrolldelta)
        (s.thumb.y - delta * s.scrolldelta)).state := by
  unfold handleWheel
  simp only
  split <;> rfl

/-- The hook is called by `handleWheel` exactly when `moveThumb` returns true,
and with the candidate position. -/
theorem handleWheel_result (s : Scrollable) (delta : JSNum) :
    (s.handleWheel delta).result =
      match (s.moveThumb (s.thumb.x - delta * s.scrolldelta)
        (s.thumb.y - delta * s.scrolldelta)).result with
      | .error e => .error e
      | .ok true => .ok (some (s.thumb.x - delta * s.scrolldelta,
          s.thumb.y - delta * s.scrolldelta))
      | .ok false => .ok none := by
  unfold handleWheel
  simp only
  split <;> simp_all

/-- C11, amended. On a state with numeric geometry and for a wheel step
`delta * scrolldelta` that is a number, the thumb's coordinate on the active
axis after `handleWheel` is `max(min(thumb - delta * scrolldelta, maxExtent), 0)`;
and when the progress skin update cannot raise (track skin attached, or no
progress skin), `handleWheel` returns and has called `thumbMoved` exactly when
that coordinate changed. -/
theorem handleWheel_clamps (s : Scrollable) (delta : JSNum) (hg : s.NumericGeometry)
    (hd : (delta * s.scrolldelta).isNaN = false) :
    (s.handleWheel delta).state.thumbPos = s.clamped (s.thumbPos - delta * s.scrolldelta) ∧
    (s.SkinsSafe → (s.handleWheel delta).Returned ∧
      ((s.handleWheel delta).HookCalled ↔
        (s.handleWheel delta).state.thumbPos ≠ s.thumbPos)) := by
  have hc : (s.activeCoord (s.thumb.x - delta * s.scrolldelta)
      (s.thumb.y - delta * s.scrolldelta)).isNaN = false := by
    rw [activeCoord_wheel]
    obtain ⟨t, ht⟩ := JSNum.isNaN_eq_false hg.thumbPos
    obtain ⟨d, hd⟩ := JSNum.isNaN_eq_false hd
    rw [ht, hd]; rfl
  have hpos : (s.handleWheel delta).state.thumbPos =
      s.clamped (s.thumbPos - delta * s.scrolldelta) := by
    rw [handleWheel_state, moveThumb_thumbPos_eq _ _ _ hc, activeCoord_wheel]
  refine ⟨hpos, fun hs => ?_⟩
  have hr := moveThumb_result s _ _ hs hc
  rw [activeCoord_wheel] at hr hc
  have hiff := JSNum.strictNe_iff (clamped_isNaN s _ hc hg.maxExtent) hg.thumbPos
  rw [hpos]
  unfold Outcome.Returned Outcome.HookCalled
  rw [handleWheel_result, hr]
  cases hb : JSNum.strictNe (s.clamped (s.thumbPos - delta * s.scrolldelta)) s.thumbPos
  · refine ⟨⟨_, rfl⟩, ?_⟩
    rw [hb] at hiff
    constructor
    · rintro ⟨a, ha⟩; cases ha
    · intro hne; exact absurd (hiff.2 hne) (by simp)
  · refine ⟨⟨_, rfl⟩, ?_⟩
    rw [hb] at hiff
    exact ⟨fun _ => hiff.1 rfl, fun _ => ⟨_, rfl⟩⟩

theorem hbar_numeric : hbar.NumericGeometry := ⟨rfl, rfl, rfl, rfl, rfl, rfl⟩

/-- The thumb's active coordinate after `handleWheel`, for a numeric thumb
coordinate and a numeric wheel step. -/
theorem handleWheel_thumbPos (s : Scrollable) (delta : JSNum)
    (ht : s.thumbPos.isNaN = false) (hd : (delta * s.scrolldelta).isNaN = false) :
    (s.handleWheel delta).state.thumbPos =
      s.clamped (s.thumbPos - delta * s.scrolldelta) := by
  have hc : (s.activeCoord (s.thumb.x - delta * s.scrolldelta)
      (s.thumb.y - delta * s.scrolldelta)).isNaN = false := by
    rw [activeCoord_wheel]
    obtain ⟨t, ht⟩ := JSNum.isNaN_eq_false ht
    obtain ⟨d, hd⟩ := JSNum.isNaN_eq_false hd
    rw [ht, hd]; rfl
  rw [handleWheel_state, moveThumb_thumbPos_eq _ _ _ hc, activeCoord_wheel]

theorem moveThumb_scrolldelta (s : Scrollable) (x y : JSNum) :
    (s.moveThumb x y).state.scrolldelta = s.scrolldelta := by
  obtain ⟨c, p, h⟩ := moveThumb_frame s x y
  rw [h]
  rcases s with ⟨m, o, t, it, inv, st, sd, w, h, sk, ps⟩
  cases o <;> rfl

/-- The thumb's active coordinate after a sequence of wheel events: the clamp
is applied after every event. -/
theorem wheels_thumbPos (deltas : List JSNum) : ∀ s : Scrollable,
    s.thumbPos.isNaN = false → s.maxExtent.isNaN = false →
    (∀ d ∈ deltas, (d * s.scrolldelta).isNaN = false) →
    (wheels s deltas).thumbPos =
      deltas.foldl (fun c d => JSNum.max (JSNum.min (c - d * s.scrolldelta) s.maxExtent)
        (.num 0)) s.thumbPos := by
  induction deltas with
  | nil => intro s _ _ _; rfl
  | cons d rest ih =>
    intro s ht hm hd
    have hd1 := hd d (List.mem_cons_self _ _)
    have hpos := handleWheel_thumbPos s d ht hd1
    have hsd : (s.handleWheel d).state.scrolldelta = s.scrolldelta := by
      rw [handleWheel_state, moveThumb_scrolldelta]
    have hme : (s.handleWheel d).state.maxExtent = s.maxExtent := by
      rw [handleWheel_state, moveThumb_maxExtent]
    have hc : (s.thumbPos - d * s.scrolldelta).isNaN = false := by
      obtain ⟨t, ht⟩ := JSNum.isNaN_eq_false ht
      obtain ⟨e, he⟩ := JSNum.isNaN_eq_false hd1
      rw [ht, he]; rfl
    have := ih (s.handleWheel d).state (by rw [hpos]; exact clamped_isNaN s _ hc hm)
      (by rw [hme]; exact hm)
      (fun e he => by rw [hsd]; exact hd e (List.mem_cons_of_mem _ he))
    simp only [wheels, List.foldl_cons] at this ⊢
    rw [this, hpos, hsd, hme]
    rfl

/-- C11, witness: width 200, thumb width 20, horizontal, `scrolldelta` 10. One
event with `delta = 1` moves the thumb from `x = 50` to `x = 40` and calls
`thumbMoved`; ten such events end at `x = 0`. -/
theorem handleWheel_clamps_witness :
    (hbar.handleWheel (.num 1)).state.thumbPos = .num 40 ∧
    (hbar.handleWheel (.num 1)).HookCalled ∧
    (wheels hbar (List.replicate 10 (.num 1))).thumbPos = .num 0 :=
  have h := handleWheel_clamps hbar (.num 1) hbar_numeric rfl
  ⟨h.1.trans (by norm_num [hbar, clamped, maxExtent, thumbPos, maxWidth, width]),
   (h.2 (Or.inl rfl)).2.2 (by
     rw [h.1]; norm_num [hbar, clamped, maxExtent, thumbPos, maxWidth, width]),
   (wheels_thumbPos _ hbar rfl rfl (by
      intro d hd
      rw [List.eq_of_mem_replicate hd]; rfl)).trans (by
     norm_num [List.replicate, hbar, maxExtent, thumbPos, maxWidth, width])⟩

/-- C11, counterexample. On the horizontal bar (numeric geometry), a wheel
event whose `delta` is `NaN` leaves the thumb at `x = 50`, while
`max(min(thumb - delta * scrolldelta, maxWidth()), 0)` is `NaN`. On the bar
with a progress skin and no track skin, a wheel event with `delta = 1` moves
the thumb to `x = 40` and raises before `thumbMoved` is called. -/
theorem handleWheel_not_clamped :
    (hbar.NumericGeometry ∧
      (hbar.handleWheel .nan).state.thumbPos = .num 50 ∧
      hbar.clamped (hbar.thumbPos - .nan * hbar.scrolldelta) = .nan) ∧
    ((noTrackBar.handleWheel (.num 1)).state.thumbPos = .num 40 ∧
      (noTrackBar.handleWheel (.num 1)).result = .error .typeError) := by
  refine ⟨⟨hbar_numeric, ?_, ?_⟩, ?_, ?_⟩ <;>
    norm_num [noTrackBar, hbar, handleWheel, clamped, maxExtent, thumbPos, maxWidth, width,
      moveThumb, _updateProgressSkin, inverse, Except.map]

/-- C14, at the failing input. On the horizontal bar with the thumb at
`x = 50`, a wheel event with `delta = 10` moves the thumb to `x = 0` and calls
`thumbMoved(-50, -100)`; after `handleDown` at `(0, 0)`, `handleMove` at
`(-100, 0)` moves the thumb to `x = 0` and calls `thumbMoved(-50, 0)`. -/
theorem thumbMoved_gets_candidate :
    ((hbar.handleWheel (.num 10)).state.thumbPos = .num 0 ∧
      (hbar.handleWheel (.num 10)).result = .ok (some (.num (-50), .num (-100)))) ∧
    (((hbar.handleDown (.num 0, .num 0)).handleMove (.num (-100), .num 0)).state.thumbPos
        = .num 0 ∧
      ((hbar.handleDown (.num 0, .num 0)).handleMove (.num (-100), .num 0)).result
        = .ok (some (.num (-50), .num 0))) := by
  refine ⟨⟨?_, ?_⟩, ?_, ?_⟩ <;>
    norm_num [hbar, handleWheel, handleMove, handleDown, thumbPos, maxWidth, width,
      moveThumb, _updateProgressSkin, inverse, Except.map]

/-- What C12 says, for the objects whose track skin is attached: with no
progress skin `_updateProgressSkin` changes nothing; with a progress skin `p`
and the track skin `k` it returns and leaves the progress skin as the spec
describes it, and nothing else changed. -/
theorem _updateProgressSkin_geometry (s : Scrollable) :
    (s.progressSkin = none → s._updateProgressSkin = ⟨s, .ok ()⟩) ∧
    (∀ p k, s.progressSkin = some p → s.skin = some k →
      s._updateProgressSkin =
        ⟨{ s with progressSkin := some (s.refreshedSkin p k) }, .ok ()⟩) := by
  rcases s with ⟨m, o, t, it, inv, st, sd, w, h, sk, ps⟩
  constructor
  · intro hp
    simp only at hp
    subst hp
    rfl
  · intro p k hp hk
    simp only at hp hk
    subst hp hk
    cases o <;> cases inv <;> rfl

/-- The scenario of C12: horizontal, width 200, thumb width 20, thumb at
`x = 50`: the progress skin gets width 60 when `inverse` is false, and starts
at `x = 60` with width 140 when `inverse` is true. -/
theorem _updateProgressSkin_scenario :
    hbar._updateProgressSkin.state.progressSkin =
      some { x := .num 0, y := .num 0, width := .num 60, height := .num 20 } ∧
    inverseBar._updateProgressSkin.state.progressSkin =
      some { x := .num 60, y := .num 0, width := .num 140, height := .num 20 } := by
  constructor <;> norm_num [inverseBar, hbar, _updateProgressSkin, inverse, width]

/-- C12, at the failing input. On the bar with the progress skin as
`showProgress` installs it and no track skin, `_updateProgressSkin` writes the
progress skin's `x` and `width`, then raises on `this.skin.height`: the
progress skin's height is not set. -/
theorem _updateProgressSkin_raises_without_track :
    freshProgressBar._updateProgressSkin.result = .error .typeError ∧
    freshProgressBar._updateProgressSkin.state.progressSkin =
      some { x := .num 0, y := .num 0, width := .num 60, height := .num 0 } := by
  constructor <;> norm_num [freshProgressBar, hbar, _updateProgressSkin, inverse, width]

/-- The method `_updateProgressSkin` raises exactly when a progress skin is
attached and the track skin is missing. -/
theorem _updateProgressSkin_raises_iff (s : Scrollable) :
    s._updateProgressSkin.result = .error .typeError ↔
      s.progressSkin.isSome = true ∧ s.skin.isNone = true := by
  rcases s with ⟨m, o, t, it, inv, st, sd, w, h, sk, ps⟩
  cases ps <;> cases o <;> cases sk <;> simp [_updateProgressSkin]

/-- C16, at the failing input. Of the four combinations of skins on the
vertical bar, the one with a progress skin and no track skin makes
`_updateProgressSkin` raise, and `moveThumb(0, 60)` with it, after the thumb
was moved; the other three return. -/
theorem moveThumb_raises_on_missing_track :
    (noTrackVBar.moveThumb (.num 0) (.num 60)).result = .error .typeError ∧
    (noTrackVBar.moveThumb (.num 0) (.num 60)).state.thumb.y = .num 60 ∧
    noTrackVBar._updateProgressSkin.result = .error .typeError ∧
    (vbar.moveThumb (.num 0) (.num 60)).result = .ok true ∧
    ({ vbar with progressSkin := none }.moveThumb (.num 0) (.num 60)).result = .ok true ∧
    ({ vbar with skin := none, progressSkin := none }.moveThumb (.num 0) (.num 60)).result
      = .ok true := by
  refine ⟨?_, ?_, ?_, ?_, ?_, ?_⟩ <;>
    norm_num [noTrackVBar, vbar, moveThumb, maxHeight, height, _updateProgressSkin, inverse,
      Except.map]

/-- C17. Two calls of `moveThumb` that agree on the proposed coordinate on the
active axis return the same value and leave the same object, whatever the
proposed coordinates on the inactive axis; and `moveThumb` leaves the thumb's
coordinate on the inactive axis, the container width and height, the inverse
flag and the drag anchor as they were. -/
theorem moveThumb_ignores_inactive (s : Scrollable) (x y x' y' : JSNum)
    (h : s.activeCoord x y = s.activeCoord x' y') :
    s.moveThumb x y = s.moveThumb x' y' ∧
    (s.moveThumb x y).state.thumbCross = s.thumbCross ∧
    (s.moveThumb x y).state._width = s._width ∧
    (s.moveThumb x y).state._height = s._height ∧
    (s.moveThumb x y).state._inverse = s._inverse ∧
    (s.moveThumb x y).state._start = s._start := by
  refine ⟨?_, ?_⟩
  · rcases s with ⟨m, o, t, it, inv, st, sd, w, h, sk, ps⟩
    cases o
    · simp only [activeCoord] at h
      subst h
      rfl
    · simp only [activeCoord] at h
      subst h
      rfl
  · obtain ⟨c, p, hf⟩ := moveThumb_frame s x y
    rw [hf]
    rcases s with ⟨m, o, t, it, inv, st, sd, w, h, sk, ps⟩
    cases o <;> exact ⟨rfl, rfl, rfl, rfl, rfl⟩

/-- C17, witness: `moveThumb(60, 0)` and `moveThumb(60, 999)` on the horizontal
bar. -/
theorem moveThumb_ignores_inactive_witness :
    hbar.moveThumb (.num 60) (.num 0) = hbar.moveThumb (.num 60) (.num 999) :=
  (moveThumb_ignores_inactive hbar (.num 60) (.num 0) (.num 60) (.num 999) rfl).1

theorem handleMove_none (s : Scrollable) (p : JSNum × JSNum) (h : s._start = none) :
    s.handleMove p = ⟨s, .ok none⟩ := by
  unfold handleMove
  rw [h]

/-- The candidate position `handleMove` proposes, on the active axis. -/
theorem activeCoord_drag (s : Scrollable) (p a : JSNum × JSNum) :
    s.activeCoord (s.thumb.x + p.1 - a.1) (s.thumb.y + p.2 - a.2) = s.dragCandidate p a := by
  unfold dragCandidate activeCoord Scrollable.thumbPos
  cases s.orientation <;> rfl

/-- The method `handleMove` with an anchor, in terms of `moveThumb`. -/
theorem handleMove_some (s : Scrollable) (p a : JSNum × JSNum) (h : s._start = some a) :
    s.handleMove p =
      match (s.moveThumb (s.thumb.x + p.1 - a.1) (s.thumb.y + p.2 - a.2)).result with
      | .error e =>
        ⟨(s.moveThumb (s.thumb.x + p.1 - a.1) (s.thumb.y + p.2 - a.2)).state, .error e⟩
      | .ok true =>
        ⟨{ (s.moveThumb (s.thumb.x + p.1 - a.1) (s.thumb.y + p.2 - a.2)).state with
            _start := some p },
          .ok (some (s.thumb.x + p.1 - a.1, s.thumb.y + p.2 - a.2))⟩
      | .ok false =>
        ⟨(s.moveThumb (s.thumb.x + p.1 - a.1) (s.thumb.y + p.2 - a.2)).state, .ok none⟩ := by
  simp only [handleMove, h]

/-- The thumb and the geometry after `handleMove` are those `moveThumb` left,
when there is an anchor. -/
theorem handleMove_thumbPos (s : Scrollable) (p a : JSNum × JSNum) (h : s._start = some a) :
    (s.handleMove p).state.thumbPos =
      (s.moveThumb (s.thumb.x + p.1 - a.1) (s.thumb.y + p.2 - a.2)).state.thumbPos ∧
    (s.handleMove p).state.maxExtent =
      (s.moveThumb (s.thumb.x + p.1 - a.1) (s.thumb.y + p.2 - a.2)).state.maxExtent ∧
    (s.handleMove p).state.orientation =
      (s.moveThumb (s.thumb.x + p.1 - a.1) (s.thumb.y + p.2 - a.2)).state.orientation ∧
    ((s.handleMove p).state.SkinsSafe ↔
      (s.moveThumb (s.thumb.x + p.1 - a.1) (s.thumb.y + p.2 - a.2)).state.SkinsSafe) := by
  rw [handleMove_some s p a h]
  split <;> exact ⟨rfl, rfl, rfl, Iff.rfl⟩

/-- C13, amended. Without an anchor `handleMove` changes nothing and calls
nothing. With an anchor `a`, a candidate position `thumb + p - a` on the active
axis that is a number, and an object on which the progress skin update cannot
raise: when the clamped candidate differs from the thumb's coordinate,
`handleMove` moves the thumb there, calls `thumbMoved` and sets the anchor to
`p`; when it does not differ, the thumb is already there, and `handleMove`
changes nothing and calls nothing. With an anchor and a candidate that is not a
number `handleMove` changes nothing and calls nothing. -/
theorem handleMove_spec (s : Scrollable) (p : JSNum × JSNum) :
    (s._start = none → s.handleMove p = ⟨s, .ok none⟩) ∧
    (∀ a, s._start = some a → (s.dragCandidate p a).isNaN = false → s.SkinsSafe →
      (JSNum.strictNe (s.clamped (s.dragCandidate p a)) s.thumbPos = true →
        (s.handleMove p).HookCalled ∧
        (s.handleMove p).state.thumbPos = s.clamped (s.dragCandidate p a) ∧
        (s.handleMove p).state._start = some p) ∧
      (JSNum.strictNe (s.clamped (s.dragCandidate p a)) s.thumbPos = false →
        s.handleMove p = ⟨s, .ok none⟩ ∧ s.thumbPos = s.clamped (s.dragCandidate p a))) ∧
    (∀ a, s._start = some a → (s.dragCandidate p a).isNaN = true →
      s.handleMove p = ⟨s, .ok none⟩) := by
  refine ⟨handleMove_none s p, ?_, ?_⟩
  swap
  · intro a ha hc
    rw [handleMove_some s p a ha, moveThumb_nan s _ _ (by rw [activeCoord_drag]; exact hc)]
  intro a ha hc hs
  have hc' : (s.activeCoord (s.thumb.x + p.1 - a.1) (s.thumb.y + p.2 - a.2)).isNaN = false := by
    rw [activeCoord_drag]; exact hc
  have hr := moveThumb_result s _ _ hs hc'
  have hpos := moveThumb_thumbPos_eq s _ _ hc'
  rw [activeCoord_drag] at hr hpos
  constructor
  · intro hne
    rw [hne] at hr
    have hm := handleMove_some s p a ha
    rw [hr] at hm
    rw [hm]
    exact ⟨⟨_, rfl⟩, hpos, rfl⟩
  · intro hne
    rw [hne] at hr
    have hm := handleMove_some s p a ha
    rw [hr] at hm
    have hst : (s.moveThumb (s.thumb.x + p.1 - a.1) (s.thumb.y + p.2 - a.2)).state = s := by
      rw [moveThumb_num s _ _ hc', activeCoord_drag, hne]
      rfl
    rw [hm, hst]
    exact ⟨rfl, (JSNum.eq_of_strictNe_false hne).symm⟩

/-- C13, witness: on the horizontal bar anchored at `(0, 0)`, with the thumb at
`x = 50`, `handleMove` at `(10, 0)` moves the thumb to `x = 60`, calls
`thumbMoved` and sets the anchor to `(10, 0)`. -/
theorem handleMove_spec_witness :
    (dragBar.handleMove (.num 10, .num 0)).HookCalled ∧
    (dragBar.handleMove (.num 10, .num 0)).state.thumbPos = .num 60 ∧
    (dragBar.handleMove (.num 10, .num 0)).state._start = some (.num 10, .num 0) :=
  have h := ((handleMove_spec dragBar (.num 10, .num 0)).2.1 (.num 0, .num 0) rfl rfl
    (Or.inl rfl)).1 (by
      norm_num [dragBar, hbar, handleDown, dragCandidate, clamped, activeCoord, maxExtent,
        thumbPos, maxWidth, width])
  ⟨h.1, h.2.1.trans (by
      norm_num [dragBar, hbar, handleDown, dragCandidate, clamped, activeCoord, maxExtent,
        thumbPos, maxWidth, width]), h.2.2⟩

/-- C13, counterexample. On the horizontal bar anchored at `(0, 0)`,
`handleMove` at a pointer position whose `x` is `NaN` leaves the thumb at
`x = 50`, while the clamp of the candidate is `NaN`. On the bar with a progress
skin and no track skin, `handleMove` at `(10, 0)` moves the thumb to `x = 60`
and raises: `thumbMoved` is not called and the anchor stays at `(0, 0)`. -/
theorem handleMove_not_clamped :
    ((dragBar.handleMove (.nan, .num 0)).state.thumbPos = .num 50 ∧
      dragBar.clamped (dragBar.dragCandidate (.nan, .num 0) (.num 0, .num 0)) = .nan) ∧
    ((dragNoTrackBar.handleMove (.num 10, .num 0)).state.thumbPos = .num 60 ∧
      (dragNoTrackBar.handleMove (.num 10, .num 0)).result = .error .typeError ∧
      (dragNoTrackBar.handleMove (.num 10, .num 0)).state._start = some (.num 0, .num 0)) := by
  refine ⟨⟨?_, ?_⟩, ?_, ?_, ?_⟩ <;>
    norm_num [dragBar, dragNoTrackBar, noTrackBar, hbar, handleDown, handleMove, dragCandidate,
      clamped, activeCoord, maxExtent, thumbPos, maxWidth, width, moveThumb,
      _updateProgressSkin, inverse, Except.map]

/-- Being within bounds depends on the thumb's active coordinate and on
`maxExtent` only. -/
theorem InBounds.congr {s t : Scrollable} (hp : t.thumbPos = s.thumbPos)
    (hm : t.maxExtent = s.maxExtent) (h : s.InBounds) : t.InBounds := by
  unfold InBounds at h ⊢
  rw [hp, hm]; exact h

/-- The method `moveThumb` keeps a thumb that is within bounds within bounds. -/
theorem moveThumb_preserves_inBounds (s : Scrollable) (x y : JSNum) (h : s.InBounds) :
    (s.moveThumb x y).state.InBounds := by
  have hmax : JSNum.num 0 ≤ s.maxExtent := JSNum.le_trans' h.1 h.2
  cases hn : (s.activeCoord x y).isNaN
  · unfold InBounds
    rw [moveThumb_maxExtent, moveThumb_thumbPos_eq s x y hn]
    exact clamped_inBounds s _ hn hmax
  · rw [moveThumb_nan s x y hn]
    exact h

theorem handleWheel_preserves_inBounds (s : Scrollable) (delta : JSNum) (h : s.InBounds) :
    (s.handleWheel delta).state.InBounds := by
  rw [handleWheel_state]
  exact moveThumb_preserves_inBounds s _ _ h

theorem handleMove_preserves_inBounds (s : Scrollable) (p : JSNum × JSNum) (h : s.InBounds) :
    (s.handleMove p).state.InBounds := by
  cases ha : s._start with
  | none => rw [handleMove_none s p ha]; exact h
  | some a =>
    obtain ⟨hp, hm, -, -⟩ := handleMove_thumbPos s p a ha
    exact InBounds.congr hp hm (moveThumb_preserves_inBounds s _ _ h)

theorem setInverse_preserves_inBounds (s : Scrollable) (i : Bool) (h : s.InBounds) :
    (s.setInverse i).state.InBounds := by
  by_cases hi : i = s._inverse
  · have : s.setInverse i = ⟨s, .ok ()⟩ := by simp [setInverse, hi]
    rw [this]; exact h
  · have h1 : ({ s with _inverse := i } : Scrollable).InBounds := h
    exact InBounds.congr (setInverse_thumbPos s i hi)
      ((setInverse_maxExtent s i).trans (moveThumb_maxExtent { s with _inverse := i } _ _).symm)
      (moveThumb_preserves_inBounds { s with _inverse := i } _ _ h1)

/-- C15, amended. A thumb that is within bounds stays within bounds under
`moveThumb`, `handleWheel`, `handleDown`, `handleMove`, `handleUp` and the
setter of `inverse`, for all their arguments. The setters of `width` and
`height` keep it within bounds exactly when the thumb's coordinate is at most
the new `maxExtent`, which is so whenever the setter is the one of the inactive
axis. -/
theorem inBounds_preserved (s : Scrollable) (h : s.InBounds) :
    (∀ x y, (s.moveThumb x y).state.InBounds) ∧
    (∀ delta, (s.handleWheel delta).state.InBounds) ∧
    (∀ p, (s.handleDown p).InBounds) ∧
    (∀ p, (s.handleMove p).state.InBounds) ∧
    s.handleUp.InBounds ∧
    (∀ i, (s.setInverse i).state.InBounds) ∧
    (∀ w, (s.setWidth w).InBounds ↔ s.thumbPos ≤ (s.setWidth w).maxExtent) ∧
    (∀ v, (s.setHeight v).InBounds ↔ s.thumbPos ≤ (s.setHeight v).maxExtent) ∧
    (s.orientation = .vertical → ∀ w, (s.setWidth w).InBounds) ∧
    (s.orientation = .horizontal → ∀ v, (s.setHeight v).InBounds) := by
  have hw : ∀ w, (s.setWidth w).thumbPos = s.thumbPos := by
    intro w
    rcases s with ⟨m, o, t, it, inv, st, sd, w', h', sk, ps⟩
    cases o <;> rfl
  have hh : ∀ v, (s.setHeight v).thumbPos = s.thumbPos := by
    intro v
    rcases s with ⟨m, o, t, it, inv, st, sd, w', h', sk, ps⟩
    cases o <;> rfl
  refine ⟨fun x y => moveThumb_preserves_inBounds s x y h,
    fun d => handleWheel_preserves_inBounds s d h,
    fun p => InBounds.congr rfl rfl h,
    fun p => handleMove_preserves_inBounds s p h,
    InBounds.congr rfl rfl h,
    fun i => setInverse_preserves_inBounds s i h, ?_, ?_, ?_, ?_⟩
  · intro w
    unfold InBounds
    rw [hw]
    exact ⟨fun hb => hb.2, fun hb => ⟨h.1, hb⟩⟩
  · intro v
    unfold InBounds
    rw [hh]
    exact ⟨fun hb => hb.2, fun hb => ⟨h.1, hb⟩⟩
  · intro hv w
    refine InBounds.congr (hw w) ?_ h
    rcases s with ⟨m, o, t, it, inv, st, sd, w', h', sk, ps⟩
    simp only at hv
    subst hv
    rfl
  · intro hv v
    refine InBounds.congr (hh v) ?_ h
    rcases s with ⟨m, o, t, it, inv, st, sd, w', h', sk, ps⟩
    simp only at hv
    subst hv
    rfl

/-- C15, witness: the horizontal bar with the thumb at `x = 50`, within
`[0, 180]`. -/
theorem inBounds_preserved_witness :
    hbar.InBounds ∧ (hbar.handleWheel (.num 10)).state.InBounds ∧
    (hbar.setInverse true).state.InBounds ∧ (hbar.setHeight (.num 5)).InBounds :=
  have hb : hbar.InBounds := by norm_num [hbar, InBounds, thumbPos, maxExtent, maxWidth, width]
  have h := inBounds_preserved hbar hb
  ⟨hb, h.2.1 _, h.2.2.2.2.2.1 _, h.2.2.2.2.2.2.2.2.2 rfl _⟩

/-- C15, counterexample. The horizontal bar 200 wide with a 20 wide thumb at
`x = 150` is within bounds; after the setter of `width` with 100, `maxWidth()`
is 80 and the thumb, still at `x = 150`, is out of bounds. -/
theorem setWidth_breaks_inBounds :
    farBar.InBounds ∧ (farBar.setWidth (.num 100)).thumbPos = .num 150 ∧
    (farBar.setWidth (.num 100)).maxExtent = .num 80 ∧
    ¬ (farBar.setWidth (.num 100)).InBounds := by
  refine ⟨?_, ?_, ?_, ?_⟩ <;>
    norm_num [farBar, hbar, setWidth, InBounds, thumbPos, maxExtent, maxWidth, width]

/-- The method `handleMove` with an anchor, a candidate that is a number, and
no possible raise. -/
theorem handleMove_eq (s : Scrollable) (p a : JSNum × JSNum) (ha : s._start = some a)
    (hc : (s.dragCandidate p a).isNaN = false) (hs : s.SkinsSafe) :
    s.handleMove p =
      if JSNum.strictNe (s.clamped (s.dragCandidate p a)) s.thumbPos then
        ⟨{ (s.moveThumb (s.thumb.x + p.1 - a.1) (s.thumb.y + p.2 - a.2)).state with
            _start := some p },
          .ok (some (s.thumb.x + p.1 - a.1, s.thumb.y + p.2 - a.2))⟩
      else ⟨s, .ok none⟩ := by
  have hc' : (s.activeCoord (s.thumb.x + p.1 - a.1) (s.thumb.y + p.2 - a.2)).isNaN = false := by
    rw [activeCoord_drag]; exact hc
  have hr := moveThumb_result s _ _ hs hc'
  rw [activeCoord_drag] at hr
  have hm := handleMove_some s p a ha
  rw [hr] at hm
  rw [hm]
  cases hne : JSNum.strictNe (s.clamped (s.dragCandidate p a)) s.thumbPos
  · have hst : (s.moveThumb (s.thumb.x + p.1 - a.1) (s.thumb.y + p.2 - a.2)).state = s := by
      rw [moveThumb_num s _ _ hc', activeCoord_drag, hne]
      rfl
    simp [hst]
  · simp

theorem _updateProgressSkin_isSome (s : Scrollable) :
    s._updateProgressSkin.state.progressSkin.isSome = s.progressSkin.isSome := by
  rcases s with ⟨m, o, t, it, inv, st, sd, w, h, sk, ps⟩
  cases ps <;> cases o <;> cases sk <;> rfl

theorem withThumbPos_progressSkin (s : Scrollable) (c : JSNum) :
    (s.withThumbPos c).progressSkin = s.progressSkin := by
  rcases s with ⟨m, o, t, it, inv, st, sd, w, h, sk, ps⟩
  cases o <;> rfl

theorem moveThumb_progressSkin_isSome (s : Scrollable) (x y : JSNum) :
    (s.moveThumb x y).state.progressSkin.isSome = s.progressSkin.isSome := by
  cases hn : (s.activeCoord x y).isNaN
  · rw [moveThumb_num s x y hn]
    split
    · show (_updateProgressSkin _).state.progressSkin.isSome = _
      rw [_updateProgressSkin_isSome, withThumbPos_progressSkin]
    · rfl
  · rw [moveThumb_nan s x y hn]

theorem moveThumb_skin (s : Scrollable) (x y : JSNum) :
    (s.moveThumb x y).state.skin = s.skin := by
  obtain ⟨c, q, h⟩ := moveThumb_frame s x y
  rw [h]
  rcases s with ⟨m, o, t, it, inv, st, sd, w, h', sk, ps⟩
  cases o <;> rfl

/-- The method `moveThumb` neither installs nor removes a skin. -/
theorem moveThumb_skinsSafe (s : Scrollable) (x y : JSNum) :
    (s.moveThumb x y).state.SkinsSafe ↔ s.SkinsSafe := by
  unfold SkinsSafe
  rw [moveThumb_skin, ← Option.not_isSome, ← Option.not_isSome, moveThumb_progressSkin_isSome]

/-- After `handleMove` the orientation is unchanged, and so is whether the
progress skin update can raise. -/
theorem handleMove_frame (s : Scrollable) (p : JSNum × JSNum) :
    (s.handleMove p).state.orientation = s.orientation ∧
    ((s.handleMove p).state.SkinsSafe ↔ s.SkinsSafe) := by
  cases ha : s._start with
  | none => rw [handleMove_none s p ha]; exact ⟨rfl, Iff.rfl⟩
  | some a =>
    obtain ⟨-, -, ho, hs⟩ := handleMove_thumbPos s p a ha
    exact ⟨ho.trans (moveThumb_orientation _ _ _), hs.trans (moveThumb_skinsSafe _ _ _)⟩

/-- One step of a drag that is not clamped. When the thumb is at `T`, the
anchor at `A` on the active axis, and the candidate lies within bounds, the
pointer is at a number `P`, and after `handleMove` the thumb is at `T + P - A`
and the anchor at `P` on the active axis. -/
theorem handleMove_unclamped (s : Scrollable) (p a : JSNum × JSNum) (T A : ℚ)
    (hs : s.SkinsSafe) (ha : s._start = some a) (hT : s.thumbPos = .num T)
    (hA : s.activeCoord a.1 a.2 = .num A)
    (h0 : .num 0 ≤ s.dragCandidate p a) (h1 : s.dragCandidate p a ≤ s.maxExtent) :
    ∃ P, s.activeCoord p.1 p.2 = .num P ∧
      (s.handleMove p).state.thumbPos = .num (T + P - A) ∧
      ∃ a', (s.handleMove p).state._start = some a' ∧
        (s.handleMove p).state.activeCoord a'.1 a'.2 = .num P := by
  have hcl := clamped_eq_self s _ h0 h1
  obtain ⟨c, hc, -⟩ := JSNum.exists_of_zero_le h0
  cases hP : s.activeCoord p.1 p.2 with
  | nan =>
    unfold dragCandidate at hc
    rw [hP, hT] at hc
    simp at hc
  | num P =>
    refine ⟨P, rfl, ?_⟩
    have hcand : s.dragCandidate p a = .num (T + P - A) := by
      unfold dragCandidate
      rw [hP, hT, hA]; rfl
    have hnum : (s.dragCandidate p a).isNaN = false := by rw [hcand]; rfl
    have hm := handleMove_eq s p a ha hnum hs
    rw [hcl, hcand, hT] at hm
    have hact : ∀ t : Scrollable, t.orientation = s.orientation →
        ∀ q : JSNum × JSNum, t.activeCoord q.1 q.2 = s.activeCoord q.1 q.2 :=
      fun t ht q => activeCoord_congr ht q.1 q.2
    by_cases hne : T + P - A = T
    · have hb : JSNum.strictNe (.num (T + P - A)) (.num T) = false := by simp [hne]
      rw [hb] at hm
      simp only [Bool.false_eq_true, if_false] at hm
      rw [hm]
      refine ⟨by rw [hT, hne], a, ha, ?_⟩
      rw [hA]
      congr 1
      linarith
    · have hb : JSNum.strictNe (.num (T + P - A)) (.num T) = true := by simp [hne]
      rw [hb] at hm
      simp only [if_true] at hm
      have hpos := (handleMove_thumbPos s p a ha).1
      have hc' : (s.activeCoord (s.thumb.x + p.1 - a.1) (s.thumb.y + p.2 - a.2)).isNaN
          = false := by rw [activeCoord_drag]; exact hnum
      rw [moveThumb_thumbPos_eq s _ _ hc', activeCoord_drag, hcl, hcand] at hpos
      refine ⟨hpos, p, by rw [hm], ?_⟩
      rw [hact _ (handleMove_frame s p).1 p, hP]

/-- A drag that is not clamped, from a thumb at `T` and an anchor at `A` on the
active axis: the last pointer position is a number `P` on the active axis, and
the thumb ends at `T + P - A`. -/
theorem drag_steps (moves : List (JSNum × JSNum)) (hne : moves ≠ []) :
    ∀ (t : Scrollable) (T A : ℚ), t.SkinsSafe →
      (∃ a, t._start = some a ∧ t.activeCoord a.1 a.2 = .num A) →
      t.thumbPos = .num T → Unclamped t moves →
      ∃ P, t.activeCoord (moves.getLast hne).1 (moves.getLast hne).2 = .num P ∧
        (moves.foldl (fun u p => (u.handleMove p).state) t).thumbPos = .num (T + P - A) := by
  induction moves with
  | nil => exact absurd rfl hne
  | cons p rest ih =>
    intro t T A hs ⟨a, ha, hA⟩ hT hu
    obtain ⟨⟨a', ha', h0, h1⟩, hrest⟩ := hu
    have haa : a' = a := by rw [ha] at ha'; exact (Option.some.inj ha').symm
    subst haa
    obtain ⟨P, hP, hpos, hanchor⟩ := handleMove_unclamped t p a' T A hs ha hT hA h0 h1
    cases rest with
    | nil => exact ⟨P, hP, hpos⟩
    | cons q rest =>
      obtain ⟨Q, hQ, hfin⟩ := ih (List.cons_ne_nil q rest) (t.handleMove p).state (T + P - A) P
        ((handleMove_frame t p).2.2 hs) hanchor hpos hrest
      refine ⟨Q, ?_, ?_⟩
      · rw [List.getLast_cons (List.cons_ne_nil q rest),
          ← activeCoord_congr (handleMove_frame t p).1]
        exact hQ
      · rw [List.foldl_cons, hfin]
        congr 1
        ring

/-- What C20 says, for the objects on which the progress skin update cannot
raise: after `handleDown` at `p0` and `handleMove` at `p1 :: rest`, with every
candidate position within `[0, maxExtent]`, the thumb's coordinate on the
active axis is its initial coordinate plus the last pointer position minus
`p0`, on that axis. -/
theorem drag_tracks_pointer (s : Scrollable) (p0 p1 : JSNum × JSNum)
    (rest : List (JSNum × JSNum)) (hs : s.SkinsSafe)
    (hu : Unclamped (s.handleDown p0) (p1 :: rest)) :
    (drag s p0 (p1 :: rest)).thumbPos =
      s.thumbPos +
        (s.activeCoord ((p1 :: rest).getLast (List.cons_ne_nil p1 rest)).1
            ((p1 :: rest).getLast (List.cons_ne_nil p1 rest)).2 -
          s.activeCoord p0.1 p0.2) := by
  obtain ⟨a, ha, h0, -⟩ := hu.1
  have hap : a = p0 := (Option.some.inj ha).symm
  subst hap
  obtain ⟨c, hc, -⟩ := JSNum.exists_of_zero_le h0
  have hcand : (s.handleDown a).dragCandidate p1 a =
      s.thumbPos + s.activeCoord p1.1 p1.2 - s.activeCoord a.1 a.2 := rfl
  rw [hcand] at hc
  cases hT : s.thumbPos with
  | nan => rw [hT] at hc; simp at hc
  | num T =>
    cases hA : s.activeCoord a.1 a.2 with
    | nan => rw [hA] at hc; simp at hc
    | num A =>
      obtain ⟨P, hP, hfin⟩ := drag_steps (p1 :: rest) (List.cons_ne_nil p1 rest)
        (s.handleDown a) T A hs ⟨a, rfl, hA⟩ hT hu
      have hP' : s.activeCoord ((p1 :: rest).getLast (List.cons_ne_nil p1 rest)).1
          ((p1 :: rest).getLast (List.cons_ne_nil p1 rest)).2 = .num P := hP
      rw [hP']
      unfold drag
      rw [hfin]
      simp only [JSNum.sub_num, JSNum.add_num]
      congr 1
      ring

/-- C20, at the failing input. On the bar with a progress skin and no track
skin, thumb at `x = 50`: after `handleDown` at `(0, 0)`, `handleMove` at
`(10, 0)` and `handleMove` at `(20, 0)`, every candidate position (60, then
80) lies within `[0, 180]`, and the thumb ends at `x = 80`, not at
`50 + (20 - 0) = 70`: the first `handleMove` raised after moving the thumb, so
the anchor stayed at `(0, 0)`. -/
theorem drag_drifts_without_track :
    Unclamped (noTrackBar.handleDown (.num 0, .num 0)) [(.num 10, .num 0), (.num 20, .num 0)] ∧
    (drag noTrackBar (.num 0, .num 0) [(.num 10, .num 0), (.num 20, .num 0)]).thumbPos
      = .num 80 ∧
    noTrackBar.thumbPos + (noTrackBar.activeCoord (.num 20) (.num 0) -
      noTrackBar.activeCoord (.num 0) (.num 0)) = .num 70 := by
  refine ⟨?_, ?_, ?_⟩ <;>
    norm_num [Unclamped, drag, noTrackBar, hbar, handleDown, handleMove, dragCandidate,
      activeCoord, maxExtent, thumbPos, maxWidth, width, moveThumb, _updateProgressSkin,
      inverse, Except.map]

end Scrollable

/-! ## Lemmas on the traversal -/

open SceneNode ResizeManager

theorem SceneNode.shownPreorderRev_eq (cs : List SceneNode) :
    shownPreorderRev cs = (cs.reverse.map shownPreorder).flatten := by
  induction cs with
  | nil => rfl
  | cons c cs ih => simp [shownPreorderRev, ih]

mutual
theorem processInteractiveNode_eq {σ : Type} (func : SceneNode → σ → σ) :
    ∀ (n : SceneNode) (s : σ), (processInteractiveNode func n s).1 =
      ((shownPreorder n).filter SceneNode.resizable).foldl (fun a x => func x a) s
  | .mk i v r l m cs, s => by
    cases v
    · simp [processInteractiveNode, shownPreorder]
    · cases r
      · simp [processInteractiveNode, shownPreorder, SceneNode.resizable,
          processInteractiveLoop_eq func cs s]
      · simp [processInteractiveNode, shownPreorder, SceneNode.resizable,
          processInteractiveLoop_eq func cs]
theorem processInteractiveLoop_eq {σ : Type} (func : SceneNode → σ → σ) :
    ∀ (cs : List SceneNode) (s : σ), processInteractiveLoop func cs s =
      ((shownPreorderRev cs).filter SceneNode.resizable).foldl (fun a x => func x a) s
  | [], s => by simp [processInteractiveLoop, shownPreorderRev]
  | c :: cs, s => by
    simp [processInteractiveLoop, shownPreorderRev, processInteractiveNode_eq func c,
      processInteractiveLoop_eq func cs s]
end


theorem SceneNode.Shown.visible_root {r n : SceneNode} (h : Shown r n) : r.visible = true := by
  cases h <;> assumption

theorem SceneNode.Shown.visible {r n : SceneNode} (h : Shown r n) : n.visible = true := by
  induction h with
  | self r hv => exact hv
  | child r c n _ _ _ ih => exact ih

mutual
theorem mem_shownPreorder_imp : ∀ (r n : SceneNode), n ∈ shownPreorder r → Shown r n
  | .mk i v rz l m cs, n, h => by
    cases v
    · simp [shownPreorder] at h
    · simp only [shownPreorder, if_true, List.mem_cons] at h
      rcases h with h | h
      · subst h; exact Shown.self _ rfl
      · obtain ⟨c, hc, hs⟩ := mem_shownPreorderRev_imp cs n h
        exact Shown.child _ c n rfl hc hs
theorem mem_shownPreorderRev_imp :
    ∀ (cs : List SceneNode) (n : SceneNode), n ∈ shownPreorderRev cs → ∃ c ∈ cs, Shown c n
  | [], n, h => by simp [shownPreorderRev] at h
  | c :: cs, n, h => by
    simp only [shownPreorderRev, List.mem_append] at h
    rcases h with h | h
    · obtain ⟨c', hc', hs⟩ := mem_shownPreorderRev_imp cs n h
      exact ⟨c', List.mem_cons_of_mem _ hc', hs⟩
    · exact ⟨c, List.mem_cons_self _ _, mem_shownPreorder_imp c n h⟩
end

theorem mem_shownPreorderRev_of_mem {cs : List SceneNode} {c n : SceneNode}
    (hc : c ∈ cs) (h : n ∈ shownPreorder c) : n ∈ shownPreorderRev cs := by
  rw [SceneNode.shownPreorderRev_eq]
  simp only [List.mem_flatten, List.mem_map, List.mem_reverse]
  exact ⟨_, ⟨c, hc, rfl⟩, h⟩

theorem mem_shownPreorder_of_shown {r n : SceneNode} (h : Shown r n) :
    n ∈ shownPreorder r := by
  induction h with
  | self r hv =>
    rcases r with ⟨i, v, rz, l, m, cs⟩
    simp only [SceneNode.visible] at hv
    subst hv
    simp [shownPreorder]
  | child r c n hv hc _ ih =>
    rcases r with ⟨i, v, rz, l, m, cs⟩
    simp only [SceneNode.visible] at hv
    subst hv
    simp only [SceneNode.children] at hc
    simp only [shownPreorder, if_true, List.mem_cons]
    exact Or.inr (mem_shownPreorderRev_of_mem hc ih)

/-- The listing holds exactly the shown display objects of the tree. -/
theorem mem_shownPreorder_iff (r n : SceneNode) : n ∈ shownPreorder r ↔ Shown r n :=
  ⟨mem_shownPreorder_imp r n, mem_shownPreorder_of_shown⟩

mutual
theorem shownPreorder_ids_subset :
    ∀ (r : SceneNode), ∀ i ∈ (shownPreorder r).map SceneNode.id, i ∈ r.ids
  | .mk i v rz l m cs, j, h => by
    cases v
    · simp [shownPreorder] at h
    · simp only [shownPreorder, if_true, List.map_cons, List.mem_cons] at h
      simp only [ids, List.mem_cons]
      rcases h with h | h
      · exact Or.inl h
      · exact Or.inr (shownPreorderRev_ids_subset cs j h)
theorem shownPreorderRev_ids_subset :
    ∀ (cs : List SceneNode), ∀ i ∈ (shownPreorderRev cs).map SceneNode.id, i ∈ idsList cs
  | [], j, h => by simp [shownPreorderRev] at h
  | c :: cs, j, h => by
    simp only [shownPreorderRev, List.map_append, List.mem_append] at h
    simp only [idsList, List.mem_append]
    rcases h with h | h
    · exact Or.inr (shownPreorderRev_ids_subset cs j h)
    · exact Or.inl (shownPreorder_ids_subset c j h)
end

mutual
theorem shownPreorder_ids_nodup :
    ∀ (r : SceneNode), r.ids.Nodup → ((shownPreorder r).map SceneNode.id).Nodup
  | .mk i v rz l m cs, h => by
    cases v
    · simp [shownPreorder]
    · simp only [ids, List.nodup_cons] at h
      simp only [shownPreorder, if_true, List.map_cons, List.nodup_cons]
      exact ⟨fun hm => h.1 (shownPreorderRev_ids_subset cs _ hm),
        shownPreorderRev_ids_nodup cs h.2⟩
theorem shownPreorderRev_ids_nodup :
    ∀ (cs : List SceneNode), (idsList cs).Nodup → ((shownPreorderRev cs).map SceneNode.id).Nodup
  | [], _ => by simp [shownPreorderRev]
  | c :: cs, h => by
    simp only [idsList] at h
    rw [List.nodup_append] at h
    simp only [shownPreorderRev, List.map_append]
    rw [List.nodup_append]
    refine ⟨shownPreorderRev_ids_nodup cs h.2.1, shownPreorder_ids_nodup c h.1, ?_⟩
    intro j hj1 hj2
    exact h.2.2 (shownPreorder_ids_subset c j hj2) (shownPreorderRev_ids_subset cs j hj1)
end


/-! ### Lemmas on the dispatch -/

namespace ResizeManager

theorem processInteractive_eq_foldl {σ : Type} (func : SceneNode → σ → σ)
    (root : Option SceneNode) (s : σ) :
    (processInteractive func root s).1 =
      (resizeOrder root).foldl (fun a n => func n a) s := by
  cases root with
  | none => rfl
  | some r => exact processInteractiveNode_eq func r s

theorem resizeOrder_invisible (i : Nat) (rz : Bool) (l : String → EventData → EventData)
    (m : String → Option (EventData → EventData)) (cs : List SceneNode) :
    resizeOrder (some (.mk i false rz l m cs)) = [] := by
  simp [resizeOrder, shownPreorder]

theorem resizeOrder_visible (i : Nat) (rz : Bool) (l : String → EventData → EventData)
    (m : String → Option (EventData → EventData)) (cs : List SceneNode) :
    resizeOrder (some (.mk i true rz l m cs)) =
      (if rz then [.mk i true rz l m cs] else []) ++
        (cs.reverse.map (fun c => resizeOrder (some c))).flatten := by
  have h : ∀ ds : List SceneNode,
      List.filter SceneNode.resizable (List.map shownPreorder ds).flatten =
        (List.map (fun c => resizeOrder (some c)) ds).flatten := by
    intro ds
    induction ds with
    | nil => rfl
    | cons d ds ih => simp [resizeOrder, ih]
  cases rz <;>
    simp [resizeOrder, shownPreorder, SceneNode.shownPreorderRev_eq, SceneNode.resizable, h,
      Function.comp_def]

theorem received_append (a b : List Effect) : received (a ++ b) = received a ++ received b := by
  simp [received, List.filterMap_append]

theorem dispatchEvent_stopped (n : SceneNode) (type : String) (d : Dispatch)
    (h : d.eventData.stopped = true) : dispatchEvent n type d = d := by
  simp [dispatchEvent, h]

theorem dispatchEvent_eventData (n : SceneNode) (type : String) (d : Dispatch)
    (h : d.eventData.stopped = false) :
    (dispatchEvent n type d).eventData = n.handle type d.eventData := by
  unfold dispatchEvent SceneNode.handle
  cases hm : n.member type <;> simp [h, hm]

theorem dispatchEvent_log (n : SceneNode) (type : String) (d : Dispatch)
    (h : d.eventData.stopped = false) :
    ∃ new, (dispatchEvent n type d).log = d.log ++ new ∧ received new = [n.id] := by
  unfold dispatchEvent
  simp only [h, Bool.not_false, if_true]
  split
  · exact ⟨_, (List.append_assoc _ _ _), rfl⟩
  · exact ⟨_, rfl, rfl⟩

/-- Sending `resize` to a list of display objects in order: once the event is
stopped nothing more happens; until then each object is sent the event. -/
theorem foldl_processResize (l : List SceneNode) :
    ∀ d : Dispatch,
      (d.eventData.stopped = true → l.foldl (fun a n => processResize n a) d = d) ∧
      (d.eventData.stopped = false →
        ∃ new, (l.foldl (fun a n => processResize n a) d).log = d.log ++ new ∧
          received new = (notified l d.eventData).map SceneNode.id) := by
  induction l with
  | nil =>
    intro d
    exact ⟨fun _ => rfl, fun _ => ⟨[], by simp, rfl⟩⟩
  | cons n rest ih =>
    intro d
    constructor
    · intro hs
      have h1 : processResize n d = d := dispatchEvent_stopped n _ d hs
      simp only [List.foldl_cons, h1]
      exact (ih d).1 hs
    · intro hs
      obtain ⟨new1, hl1, hr1⟩ : ∃ new, (processResize n d).log = d.log ++ new ∧
          received new = [n.id] := dispatchEvent_log n "resize" d hs
      have he : (processResize n d).eventData = n.handle "resize" d.eventData :=
        dispatchEvent_eventData n "resize" d hs
      simp only [List.foldl_cons, notified]
      cases hst : (n.handle "resize" d.eventData).stopped
      · obtain ⟨new2, hl2, hr2⟩ := (ih (processResize n d)).2 (by rw [he]; exact hst)
        refine ⟨new1 ++ new2, ?_, ?_⟩
        · rw [hl2, hl1, List.append_assoc]
        · rw [received_append, hr1, hr2, he]; simp
      · rw [(ih (processResize n d)).1 (by rw [he]; exact hst)]
        exact ⟨new1, hl1, by simp [hr1]⟩

theorem notified_prefix (l : List SceneNode) : ∀ e : EventData, notified l e <+: l := by
  induction l with
  | nil => intro e; exact List.prefix_refl _
  | cons n rest ih =>
    intro e
    simp only [notified]
    split
    · exact ⟨rest, rfl⟩
    · exact (List.prefix_cons_inj n).2 (ih _)


/-! ## Claims on the traversal and the dispatch -/

/-- C4. For every scene graph and every callback, `processInteractive` calls
the callback on the display objects of `resizeOrder root`, in that order, once
per entry. That list holds exactly the resizable display objects that are shown
(visible, with only visible ancestors up to the root), each once when the
display objects of the graph are distinct; it lists a visible object (when it
is resizable) before the listings of its children, taken last child first,
whether or not the object is resizable, and lists nothing under an invisible
object. For an absent or invisible root the call returns false without calling
the callback. -/
theorem processInteractive_visits (root : Option SceneNode) :
    (∀ (σ : Type) (func : SceneNode → σ → σ) (s : σ),
      (processInteractive func root s).1 =
        (resizeOrder root).foldl (fun a n => func n a) s) ∧
    (∀ n, n ∈ resizeOrder root ↔
      ∃ r, root = some r ∧ SceneNode.Shown r n ∧ n.resizable = true) ∧
    ((treeIds root).Nodup → ((resizeOrder root).map SceneNode.id).Nodup) ∧
    (∀ i rz l m cs, resizeOrder (some (.mk i true rz l m cs)) =
      (if rz then [.mk i true rz l m cs] else []) ++
        (cs.reverse.map (fun c => resizeOrder (some c))).flatten) ∧
    (∀ i rz l m cs, resizeOrder (some (.mk i false rz l m cs)) = []) ∧
    ((root = none ∨ ∃ r, root = some r ∧ r.visible = false) →
      ∀ (σ : Type) (func : SceneNode → σ → σ) (s : σ),
        processInteractive func root s = (s, some false)) := by
  refine ⟨fun σ func s => processInteractive_eq_foldl func root s, ?_, ?_,
    resizeOrder_visible, resizeOrder_invisible, ?_⟩
  · intro n
    cases root with
    | none => simp [resizeOrder]
    | some r => simp [resizeOrder, mem_shownPreorder_iff]
  · intro hid
    cases root with
    | none => simp [resizeOrder]
    | some r =>
      exact (shownPreorder_ids_nodup r hid).sublist
        ((List.filter_sublist _).map SceneNode.id)
  · intro h σ func s
    rcases h with h | ⟨r, h, hv⟩
    · subst h; rfl
    · subst h
      rcases r with ⟨i, v, rz, l, m, cs⟩
      simp only [SceneNode.visible] at hv
      subst hv
      simp [processInteractive, processInteractiveNode]

/-- C4, witness: on the sample scene graph the callback is called on `4`, `5`
and `1`, in this order. -/
theorem processInteractive_visits_witness :
    (processInteractive (fun n acc => acc ++ [n.id]) (some sampleScene) []).1 = [4, 5, 1] ∧
    ((resizeOrder (some sampleScene)).map SceneNode.id).Nodup :=
  ⟨((processInteractive_visits (some sampleScene)).1 _ _ _).trans (by decide),
   (processInteractive_visits (some sampleScene)).2.2.1 (by decide)⟩

/-- C5. In a dispatch cycle (`_resizeEvent` with `getSizeData` returning
`size`), whatever the stopped flag was before, the display objects that are
sent `resize` are, in order, the prefix of the traversal order of the shown
resizable objects that ends with the first object whose handlers leave the
event stopped, and all of them when none does. -/
theorem resizeEvent_notifies_prefix (m : ResizeManager) (h : Host) (event : Nat)
    (size : SizeData) (hsize : getSizeData m h event = .ok size) :
    (_resizeEvent m h event).2 = .ok () ∧
    (∃ new, (_resizeEvent m h event).1.2.log = h.log ++ new ∧
      received new =
        (notified (resizeOrder m.root)
          { m.eventData with stopped := false, data := some size }).map SceneNode.id) ∧
    notified (resizeOrder m.root) { m.eventData with stopped := false, data := some size }
      <+: resizeOrder m.root ∧
    (∀ b, _resizeEvent { m with eventData := { m.eventData with stopped := b } } h event =
      _resizeEvent m h event) := by
  have hfold := processInteractive_eq_foldl processResize m.root
  refine ⟨?_, ?_, notified_prefix _ _, ?_⟩
  · simp [_resizeEvent, hsize]
  · simp only [_resizeEvent, hsize, hfold]
    cases hp : m.autoPreventDefault
    · obtain ⟨new, hl, hr⟩ := (foldl_processResize (resizeOrder m.root)
        ⟨{ m.eventData with stopped := false, data := some size }, h.log⟩).2 rfl
      refine ⟨new ++ [.managerEmit "resize" (List.foldl (fun a n => processResize n a)
        ⟨{ m.eventData with stopped := false, data := some size }, h.log⟩
        (resizeOrder m.root)).eventData], ?_, ?_⟩
      · simp only [Bool.false_eq_true, if_false]
        rw [hl]; simp
      · rw [received_append, hr]; simp [received]
    · obtain ⟨new, hl, hr⟩ := (foldl_processResize (resizeOrder m.root)
        ⟨{ m.eventData with stopped := false, data := some size },
          h.log ++ [.preventDefault event]⟩).2 rfl
      refine ⟨[.preventDefault event] ++ new ++
        [.managerEmit "resize" (List.foldl (fun a n => processResize n a)
          ⟨{ m.eventData with stopped := false, data := some size },
            h.log ++ [.preventDefault event]⟩ (resizeOrder m.root)).eventData], ?_, ?_⟩
      · simp only [if_true, Host.preventDefault]
        rw [hl]; simp
      · rw [received_append, received_append, hr]; simp [received]
  · intro b
    have hs : getSizeData { m with eventData := { m.eventData with stopped := b } } h event
        = .ok size := hsize
    simp only [_resizeEvent, hs, hsize]

/-- C5, witness: on the sample scene graph, where the `resize` member of `5`
stops the event, `4` and `5` are sent `resize` and `1` is not. -/
theorem resizeEvent_notifies_prefix_witness :
    ∃ new, (_resizeEvent sampleManager sampleHost 7).1.2.log = sampleHost.log ++ new ∧
      received new = [4, 5] :=
  have h := resizeEvent_notifies_prefix sampleManager sampleHost 7
    { originalEvent := 7, width := .num 800, height := .num 600 } rfl
  match h.2.1 with
  | ⟨new, hl, hr⟩ => ⟨new, hl, hr.trans (by decide)⟩

/-- C7. With no element set and fullscreen off, `onResize` returns at once:
the manager and the host (timers and effects included) are what they were,
whatever `autoPreventDefault` and `useResizeDoneTimeout` are. -/
theorem onResize_ignored (m : ResizeManager) (h : Host) (event : Nat)
    (he : m.element = none) (hf : m.fullscreen = false) :
    onResize m h event = ((m, h), .ok ()) := by
  simp [onResize, he, hf]

/-- C7, witness: the manager with no element and fullscreen off. -/
theorem onResize_ignored_witness :
    onResize fixedManager sampleHost 7 = ((fixedManager, sampleHost), .ok ()) :=
  onResize_ignored fixedManager sampleHost 7 rfl rfl

/-! ## Lemmas on the debounce -/

theorem getSizeData_ok (m : ResizeManager) (h : Host) (event : Nat)
    (hc : m.fullscreen = true ∨ m.element.isSome = true) :
    ∃ size, getSizeData m h event = .ok size := by
  unfold getSizeData
  cases hf : m.fullscreen
  · rcases hc with hc | hc
    · rw [hf] at hc; cases hc
    · cases he : m.element with
      | none => rw [he] at hc; cases hc
      | some el => exact ⟨_, rfl⟩
  · exact ⟨_, rfl⟩

theorem processResize_cycles (n : SceneNode) (d : Dispatch) :
    (processResize n d).log.countP Effect.isManagerEmit = d.log.countP Effect.isManagerEmit := by
  unfold processResize dispatchEvent
  cases d.eventData.stopped
  · simp only [Bool.not_false, if_true]
    split <;> simp [List.countP_append, Effect.isManagerEmit]
  · simp

theorem foldl_processResize_cycles (l : List SceneNode) : ∀ d : Dispatch,
    (l.foldl (fun a n => processResize n a) d).log.countP Effect.isManagerEmit =
      d.log.countP Effect.isManagerEmit := by
  induction l with
  | nil => intro d; rfl
  | cons n rest ih => intro d; rw [List.foldl_cons, ih, processResize_cycles]

/-- A dispatch cycle that can read a size: it changes the manager's event data
only, leaves the host's clock and timers alone, and adds one emission of the
manager to the effects. -/
theorem resizeEvent_frame (m : ResizeManager) (h : Host) (event : Nat)
    (hc : m.fullscreen = true ∨ m.element.isSome = true) :
    (∃ e, (_resizeEvent m h event).1.1 = { m with eventData := e }) ∧
    (_resizeEvent m h event).1.2.timers = h.timers ∧
    (_resizeEvent m h event).1.2.now = h.now ∧
    (_resizeEvent m h event).1.2.timersCreated = h.timersCreated ∧
    cycles (_resizeEvent m h event).1.2 = cycles h + 1 := by
  obtain ⟨size, hsize⟩ := getSizeData_ok m h event hc
  simp only [_resizeEvent, hsize, processInteractive_eq_foldl, cycles]
  refine ⟨⟨_, rfl⟩, ?_, ?_, ?_, ?_⟩
  · cases m.autoPreventDefault <;> rfl
  · cases m.autoPreventDefault <;> rfl
  · cases m.autoPreventDefault <;> rfl
  · rw [List.countP_append, foldl_processResize_cycles]
    cases m.autoPreventDefault <;>
      simp [Host.preventDefault, List.countP_append, Effect.isManagerEmit]


theorem tick_idle (w : World) (h : Idle w) :
    tick w = (w.1, { w.2 with now := w.2.now + 1 }) := by
  unfold tick
  rw [h]
  rfl

theorem tick_wait (w : World) (r : Nat) (h : ArmedFor w (r + 2)) :
    tick w = (w.1, { w.2 with now := w.2.now + 1 }) := by
  obtain ⟨t, ht, -, -, hdue⟩ := h
  unfold tick
  rw [ht]
  simp only [List.foldl_cons, List.foldl_nil, fire]
  rw [if_neg]
  intro hc
  have := hc.2
  simp only [hdue] at this
  omega

theorem tick_fire (w : World) (h : ArmedFor w 1) (hc : Configured w.1) :
    Idle (tick w) ∧ Configured (tick w).1 ∧ cycles (tick w).2 = cycles w.2 + 1 ∧
      (tick w).2.now = w.2.now + 1 := by
  obtain ⟨t, ht, hid, -, hdue⟩ := h
  have hfire : tick w =
      (_resizeEvent w.1
        { w.2 with now := w.2.now + 1, timers := [] } t.event).1 := by
    unfold tick
    rw [ht]
    simp only [List.foldl_cons, List.foldl_nil, fire]
    rw [if_pos ⟨by simp [ht], by simp [hdue]⟩]
    simp [resizeDone, Host.clearInterval, ht, hid]
  obtain ⟨⟨e, he⟩, htm, hnow, -, hcy⟩ := resizeEvent_frame w.1
    { w.2 with now := w.2.now + 1, timers := [] } t.event hc.2
  rw [hfire]
  refine ⟨htm, ?_, hcy, hnow⟩
  rw [he]
  exact hc

theorem advance_idle (k : Nat) : ∀ w : World, Idle w →
    advance k w = (w.1, { w.2 with now := w.2.now + k }) := by
  induction k with
  | zero => intro w _; rfl
  | succ k ih =>
    intro w h
    rw [advance, tick_idle w h, ih (w.1, { w.2 with now := w.2.now + 1 }) h]
    simp [Nat.add_assoc, Nat.add_comm 1 k]

theorem advance_wait (k : Nat) : ∀ (w : World) (r : Nat), ArmedFor w (k + r + 1) →
    advance k w = (w.1, { w.2 with now := w.2.now + k }) := by
  induction k with
  | zero => intro w r _; rfl
  | succ k ih =>
    intro w r h
    have h1 : ArmedFor w (k + r + 2) := by
      have : k + 1 + r + 1 = k + r + 2 := by omega
      rw [this] at h; exact h
    rw [advance, tick_wait w (k + r) h1]
    have h2 : ArmedFor (w.1, { w.2 with now := w.2.now + 1 }) (k + r + 1) := by
      obtain ⟨t, ht, hid, hne, hdue⟩ := h1
      exact ⟨t, ht, hid, hne, by simp only [hdue]; omega⟩
    rw [ih (w.1, { w.2 with now := w.2.now + 1 }) r h2]
    simp [Nat.add_assoc, Nat.add_comm 1 k]


theorem advance_add (a b : Nat) : ∀ w : World, advance (a + b) w = advance b (advance a w) := by
  induction a with
  | zero => intro w; simp [advance]
  | succ a ih =>
    intro w
    have : a + 1 + b = (a + b) + 1 := by omega
    rw [this, advance, advance, ih]

/-- Once the pending timer is due it expires, once: afterwards no timer is
pending and one more dispatch cycle has run. -/
theorem advance_fire (w : World) (r k : Nat) (h : ArmedFor w (r + 1)) (hc : Configured w.1)
    (hk : r + 1 ≤ k) :
    Idle (advance k w) ∧ Configured (advance k w).1 ∧
      cycles (advance k w).2 = cycles w.2 + 1 := by
  obtain ⟨j, rfl⟩ : ∃ j, k = r + (1 + j) := ⟨k - r - 1, by omega⟩
  rw [advance_add, advance_wait r w 0 h, advance_add]
  have h1 : ArmedFor (w.1, { w.2 with now := w.2.now + r }) 1 := by
    obtain ⟨t, ht, hid, hne, hdue⟩ := h
    exact ⟨t, ht, hid, hne, by simp only [hdue]; omega⟩
  obtain ⟨hi, hcf, hcy, -⟩ := tick_fire _ h1 hc
  have h2 : advance 1 (w.1, { w.2 with now := w.2.now + r }) =
      tick (w.1, { w.2 with now := w.2.now + r }) := rfl
  rw [h2, advance_idle j _ hi]
  exact ⟨hi, hcf, hcy⟩

/-- The method `onResize` on a configured manager: it clears the timer the
manager holds, when it holds one, and sets a new one, due in
`RESIZE_DONE_TIMEOUT`; no dispatch cycle runs. -/
theorem onResize_debounced (m : ResizeManager) (h : Host) (event : Nat) (hc : Configured m) :
    (onResize m h event).1.1 = { m with resizeTimeout := h.timersCreated + 1 } ∧
    (onResize m h event).1.2.timers =
      (if m.resizeTimeout != 0 then h.timers.filter (fun t => t.id != m.resizeTimeout)
        else h.timers) ++
        [⟨h.timersCreated + 1, h.now + RESIZE_DONE_TIMEOUT, RESIZE_DONE_TIMEOUT, event⟩] ∧
    (onResize m h event).1.2.now = h.now ∧
    cycles (onResize m h event).1.2 = cycles h := by
  obtain ⟨hd, hsz⟩ := hc
  have hguard : (m.element.isNone && m.fullscreen == false) = false := by
    rcases hsz with hf | he
    · simp [hf]
    · cases hel : m.element with
      | none => rw [hel] at he; cases he
      | some el => simp
  unfold onResize
  simp only [hguard, hd, if_true, Bool.false_eq_true, if_false]
  cases m.autoPreventDefault <;> cases (m.resizeTimeout != 0) <;>
    simp [Host.setInterval, Host.clearInterval, Host.preventDefault, cycles,
      List.countP_append, Effect.isManagerEmit]

/-- A raw resize signal on a configured manager, with no timer pending or only
the manager's own: afterwards the manager's own new timer is the only one
pending, due in `RESIZE_DONE_TIMEOUT`, and no dispatch cycle has run. -/
theorem signal_arms (w : World) (event : Nat) (hc : Configured w.1)
    (h : Idle w ∨ ∃ r, ArmedFor w r) :
    ArmedFor (signal w event) RESIZE_DONE_TIMEOUT ∧ Configured (signal w event).1 ∧
      cycles (signal w event).2 = cycles w.2 := by
  obtain ⟨hm, ht, hnow, hcy⟩ := onResize_debounced w.1 w.2 event hc
  have hclear : (if w.1.resizeTimeout != 0 then
      w.2.timers.filter (fun t => t.id != w.1.resizeTimeout) else w.2.timers) = [] := by
    rcases h with hi | ⟨r, t, htm, hid, hne, -⟩
    · have hi' : w.2.timers = [] := hi
      split <;> simp [hi']
    · rw [← hid]
      simp [hne, htm]
  rw [hclear] at ht
  refine ⟨⟨_, ht, ?_, ?_, ?_⟩, ?_, hcy⟩
  · show _ = (onResize w.1 w.2 event).1.1.resizeTimeout
    rw [hm]
  · simp
  · show _ = (onResize w.1 w.2 event).1.2.now + _
    rw [hnow]
  · show Configured (onResize w.1 w.2 event).1.1
    rw [hm]
    exact hc

theorem run_burst (rest : List (Nat × Nat)) : ∀ w : World,
    ArmedFor w RESIZE_DONE_TIMEOUT → Configured w.1 →
    (∀ p ∈ rest, p.1 < RESIZE_DONE_TIMEOUT) →
    ArmedFor (run w rest) RESIZE_DONE_TIMEOUT ∧ Configured (run w rest).1 ∧
      cycles (run w rest).2 = cycles w.2 := by
  induction rest with
  | nil => intro w ha hc _; exact ⟨ha, hc, rfl⟩
  | cons p rest ih =>
    intro w ha hc hg
    obtain ⟨gap, event⟩ := p
    have hgap : gap < RESIZE_DONE_TIMEOUT := hg (gap, event) (List.mem_cons_self _ _)
    have hw : advance gap w = (w.1, { w.2 with now := w.2.now + gap }) := by
      apply advance_wait gap w (RESIZE_DONE_TIMEOUT - gap - 1)
      have : gap + (RESIZE_DONE_TIMEOUT - gap - 1) + 1 = RESIZE_DONE_TIMEOUT := by omega
      rw [this]; exact ha
    have ha1 : ArmedFor (advance gap w) (RESIZE_DONE_TIMEOUT - gap) := by
      rw [hw]
      obtain ⟨t, ht, hid, hne, hdue⟩ := ha
      exact ⟨t, ht, hid, hne, by simp only [hdue]; omega⟩
    have hc1 : Configured (advance gap w).1 := by rw [hw]; exact hc
    obtain ⟨ha2, hc2, hcy2⟩ := signal_arms (advance gap w) event hc1 (Or.inr ⟨_, ha1⟩)
    obtain ⟨ha3, hc3, hcy3⟩ := ih _ ha2 hc2 (fun q hq => hg q (List.mem_cons_of_mem _ hq))
    refine ⟨ha3, hc3, ?_⟩
    show cycles (run (signal (advance gap w) event) rest).2 = _
    rw [hcy3, hcy2, hw]
    rfl

theorem run_spaced (rest : List (Nat × Nat)) : ∀ w : World,
    ArmedFor w RESIZE_DONE_TIMEOUT → Configured w.1 →
    (∀ p ∈ rest, RESIZE_DONE_TIMEOUT < p.1) →
    ArmedFor (run w rest) RESIZE_DONE_TIMEOUT ∧ Configured (run w rest).1 ∧
      cycles (run w rest).2 = cycles w.2 + rest.length := by
  induction rest with
  | nil => intro w ha hc _; exact ⟨ha, hc, rfl⟩
  | cons p rest ih =>
    intro w ha hc hg
    obtain ⟨gap, event⟩ := p
    have hgap : RESIZE_DONE_TIMEOUT < gap := hg (gap, event) (List.mem_cons_self _ _)
    obtain ⟨hi1, hc1, hcy1⟩ := advance_fire w (RESIZE_DONE_TIMEOUT - 1) gap ha hc
      (by simp only [RESIZE_DONE_TIMEOUT] at hgap ⊢; omega)
    obtain ⟨ha2, hc2, hcy2⟩ := signal_arms (advance gap w) event hc1 (Or.inl hi1)
    obtain ⟨ha3, hc3, hcy3⟩ := ih _ ha2 hc2 (fun q hq => hg q (List.mem_cons_of_mem _ hq))
    refine ⟨ha3, hc3, ?_⟩
    show cycles (run (signal (advance gap w) event) rest).2 = _
    rw [hcy3, hcy2, hcy1, List.length_cons]
    omega

/-- The first signal of a sequence, on a configured manager with no timer
pending: it sets the manager's timer and no dispatch cycle runs. -/
theorem first_signal (m : ResizeManager) (h : Host) (first : Nat × Nat)
    (hc : Configured m) (hidle : h.timers = []) :
    ArmedFor (signal (advance first.1 (m, h)) first.2) RESIZE_DONE_TIMEOUT ∧
      Configured (signal (advance first.1 (m, h)) first.2).1 ∧
      cycles (signal (advance first.1 (m, h)) first.2).2 = cycles h := by
  have hw := advance_idle first.1 (m, h) hidle
  have hi : Idle (advance first.1 (m, h)) := by rw [hw]; exact hidle
  have hc1 : Configured (advance first.1 (m, h)).1 := by rw [hw]; exact hc
  obtain ⟨ha2, hc2, hcy2⟩ := signal_arms _ first.2 hc1 (Or.inl hi)
  refine ⟨ha2, hc2, ?_⟩
  rw [hcy2, hw]
  rfl


/-! ## Claims on the debounce -/

/-- C6. On a manager with debouncing on and an element or fullscreen
configured, started with no timer pending, take any sequence of raw resize
signals `first :: rest`, each given with the time elapsed since the previous
one. When every signal after the first arrives less than
`RESIZE_DONE_TIMEOUT = 200` units after the previous one, no dispatch cycle has
run before 200 units have passed since the last signal, and exactly one has run
from then on. When every signal after the first arrives more than 200 units
after the previous one, exactly as many dispatch cycles as signals have run
once 200 units have passed since the last signal. -/
theorem debounce_coalesces (m : ResizeManager) (h : Host) (hc : Configured m)
    (hidle : h.timers = []) (first : Nat × Nat) (rest : List (Nat × Nat)) :
    RESIZE_DONE_TIMEOUT = 200 ∧
    ((∀ p ∈ rest, p.1 < RESIZE_DONE_TIMEOUT) →
      (∀ k, k < RESIZE_DONE_TIMEOUT →
        cycles (advance k (run (m, h) (first :: rest))).2 = cycles h) ∧
      (∀ k, RESIZE_DONE_TIMEOUT ≤ k →
        cycles (advance k (run (m, h) (first :: rest))).2 = cycles h + 1)) ∧
    ((∀ p ∈ rest, RESIZE_DONE_TIMEOUT < p.1) →
      ∀ k, RESIZE_DONE_TIMEOUT ≤ k →
        cycles (advance k (run (m, h) (first :: rest))).2 =
          cycles h + (first :: rest).length) := by
  obtain ⟨ha1, hc1, hcy1⟩ := first_signal m h first hc hidle
  have hrun : run (m, h) (first :: rest) =
      run (signal (advance first.1 (m, h)) first.2) rest := rfl
  refine ⟨rfl, ?_, ?_⟩
  · intro hg
    obtain ⟨ha2, hc2, hcy2⟩ := run_burst rest _ ha1 hc1 hg
    rw [hrun]
    constructor
    · intro k hk
      have hw := advance_wait k _ (RESIZE_DONE_TIMEOUT - k - 1)
        (by
          have : k + (RESIZE_DONE_TIMEOUT - k - 1) + 1 = RESIZE_DONE_TIMEOUT := by omega
          rw [this]; exact ha2)
      rw [hw]
      show cycles (run (signal (advance first.1 (m, h)) first.2) rest).2 = _
      rw [hcy2, hcy1]
    · intro k hk
      obtain ⟨-, -, hcy3⟩ := advance_fire _ (RESIZE_DONE_TIMEOUT - 1) k ha2 hc2
        (by simp only [RESIZE_DONE_TIMEOUT] at hk ⊢; omega)
      rw [hcy3, hcy2, hcy1]
  · intro hg k hk
    obtain ⟨ha2, hc2, hcy2⟩ := run_spaced rest _ ha1 hc1 hg
    obtain ⟨-, -, hcy3⟩ := advance_fire _ (RESIZE_DONE_TIMEOUT - 1) k ha2 hc2
      (by simp only [RESIZE_DONE_TIMEOUT] at hk ⊢; omega)
    rw [hrun, hcy3, hcy2, hcy1, List.length_cons]
    omega

/-- C6, witness: three signals 50 and 199 units apart give one dispatch cycle,
200 units after the last; three signals 201 and 300 units apart give three. -/
theorem debounce_coalesces_witness :
    (cycles (advance 199 (run (sampleManager, sampleHost) [(5, 1), (50, 2), (199, 3)])).2 = 0 ∧
      cycles (advance 200 (run (sampleManager, sampleHost) [(5, 1), (50, 2), (199, 3)])).2 = 1) ∧
    cycles (advance 200 (run (sampleManager, sampleHost) [(5, 1), (201, 2), (300, 3)])).2 = 3 :=
  have hb := (debounce_coalesces sampleManager sampleHost ⟨rfl, Or.inl rfl⟩ rfl (5, 1)
    [(50, 2), (199, 3)]).2.1 (by decide)
  have hs := (debounce_coalesces sampleManager sampleHost ⟨rfl, Or.inl rfl⟩ rfl (5, 1)
    [(201, 2), (300, 3)]).2.2 (by decide)
  ⟨⟨hb.1 199 (by decide), hb.2 200 (by decide)⟩, hs 200 (by decide)⟩

/-! ## Claims on the dispatch of one event and on the manager's emission -/

/-- C19. When the event data is stopped, `dispatchEvent` does nothing: the
event data and the effects are what they were. Otherwise it sets `target` to
the display object and `type` to the event name, emits the event on the
display object with that event data, and then, when the display object has a
member of that name, calls it with the event data as the listeners left it;
these are the only effects, in this order, each once. -/
theorem dispatchEvent_spec (n : SceneNode) (type : String) (d : Dispatch) :
    (d.eventData.stopped = true → dispatchEvent n type d = d) ∧
    (d.eventData.stopped = false →
      (dispatchEvent n type d).log =
        d.log ++
          (.nodeEmit n.id type { d.eventData with target := some n.id, type := some type } ::
            match n.member type with
            | some _ =>
              [.nodeCall n.id type
                (n.listeners type
                  { d.eventData with target := some n.id, type := some type })]
            | none => []) ∧
      (dispatchEvent n type d).eventData =
        match n.member type with
        | some handler =>
          handler (n.listeners type
            { d.eventData with target := some n.id, type := some type })
        | none =>
          n.listeners type { d.eventData with target := some n.id, type := some type }) := by
  refine ⟨dispatchEvent_stopped n type d, ?_⟩
  intro hs
  unfold dispatchEvent
  simp only [hs, Bool.not_false, if_true]
  cases n.member type with
  | none => exact ⟨rfl, rfl⟩
  | some handler => exact ⟨by simp, rfl⟩

/-- C19, witness: on the display object `5` of the sample scene graph, whose
`resize` member stops the event, `dispatchEvent` emits, then calls the member,
and leaves the event stopped; on stopped event data it does nothing. -/
theorem dispatchEvent_spec_witness :
    (dispatchEvent (.mk 5 true true quiet stopOnResize []) "resize"
      ⟨sampleManager.eventData, []⟩).log =
      [.nodeEmit 5 "resize"
          { stopped := false, target := some 5, type := some "resize", data := none },
        .nodeCall 5 "resize"
          { stopped := false, target := some 5, type := some "resize", data := none }] ∧
    (dispatchEvent (.mk 5 true true quiet stopOnResize []) "resize"
      ⟨sampleManager.eventData, []⟩).eventData.stopped = true ∧
    dispatchEvent (.mk 5 true true quiet stopOnResize []) "resize"
      ⟨fixedManager.eventData, []⟩ = ⟨fixedManager.eventData, []⟩ :=
  ⟨((dispatchEvent_spec _ _ _).2 rfl).1.trans (by decide),
   by rw [((dispatchEvent_spec _ _ _).2 rfl).2]; decide,
   (dispatchEvent_spec _ _ _).1 rfl⟩

/-- When the handlers of the display objects that are sent `resize` leave the
data field alone, a whole dispatch leaves it alone. -/
theorem foldl_processResize_data (l : List SceneNode) :
    ∀ d : Dispatch, d.eventData.stopped = false →
      (∀ n ∈ notified l d.eventData, ∀ e : EventData, (n.handle "resize" e).data = e.data) →
      (l.foldl (fun a n => processResize n a) d).eventData.data = d.eventData.data := by
  induction l with
  | nil => intro d _ _; rfl
  | cons n rest ih =>
    intro d hs hd
    have he : (processResize n d).eventData = n.handle "resize" d.eventData :=
      dispatchEvent_eventData n "resize" d hs
    have hn : (n.handle "resize" d.eventData).data = d.eventData.data :=
      hd n (by simp [notified]) _
    rw [List.foldl_cons]
    cases hst : (n.handle "resize" d.eventData).stopped
    · rw [ih (processResize n d) (by rw [he]; exact hst) (by
        intro k hk e
        apply hd k _ e
        rw [he] at hk
        simp only [notified, hst, Bool.false_eq_true, if_false]
        exact List.mem_cons_of_mem _ hk), he, hn]
    · rw [(foldl_processResize rest (processResize n d)).1 (by rw [he]; exact hst), he, hn]

/-- What `getSizeData` returns, when it returns. -/
theorem getSizeData_eq (m : ResizeManager) (h : Host) (event : Nat) (size : SizeData)
    (hsize : getSizeData m h event = .ok size) :
    size.originalEvent = event ∧
    (m.fullscreen = true → size.width = h.innerWidth ∧ size.height = h.innerHeight) ∧
    (m.fullscreen = false → ∃ el, m.element = some el ∧
      size.width = el.clientWidth ∧ size.height = el.clientHeight) := by
  unfold getSizeData at hsize
  cases hf : m.fullscreen
  · rw [hf] at hsize
    cases he : m.element with
    | none => rw [he] at hsize; simp at hsize
    | some el =>
      rw [he] at hsize
      simp only [Bool.false_eq_true, if_false, Except.ok.injEq] at hsize
      subst hsize
      exact ⟨rfl, fun hc => (by cases hc), fun _ => ⟨el, rfl, rfl, rfl⟩⟩
  · rw [hf] at hsize
    simp only [if_true, Except.ok.injEq] at hsize
    subst hsize
    exact ⟨rfl, fun _ => ⟨rfl, rfl⟩, fun hc => (by cases hc)⟩

/-- C18, amended. In a dispatch cycle (`_resizeEvent` with `getSizeData` returning
`size`), the size data is the window's inner size when fullscreen is on and the
element's client size otherwise; the effects of the cycle end with the one
emission of `resize` by the manager, all effects on display objects coming
before it, whatever the handlers did to the stopped flag; the event data the
emission carries is the manager's, and its data field is `size` when the
handlers of the display objects that are sent `resize` in the cycle leave the
data field alone. -/
theorem resizeEvent_emits_once (m : ResizeManager) (h : Host) (event : Nat)
    (size : SizeData) (hsize : getSizeData m h event = .ok size) :
    (size.originalEvent = event ∧
      (m.fullscreen = true → size.width = h.innerWidth ∧ size.height = h.innerHeight) ∧
      (m.fullscreen = false → ∃ el, m.element = some el ∧
        size.width = el.clientWidth ∧ size.height = el.clientHeight)) ∧
    (_resizeEvent m h event).2 = .ok () ∧
    (∃ before, (_resizeEvent m h event).1.2.log =
        h.log ++ before ++ [.managerEmit "resize" (_resizeEvent m h event).1.1.eventData] ∧
      before.countP Effect.isManagerEmit = 0) ∧
    ((∀ n ∈ notified (resizeOrder m.root)
          { m.eventData with stopped := false, data := some size },
        ∀ e : EventData, (n.handle "resize" e).data = e.data) →
      (_resizeEvent m h event).1.1.eventData.data = some size) := by
  refine ⟨getSizeData_eq m h event size hsize, by simp [_resizeEvent, hsize], ?_, ?_⟩
  · obtain ⟨new, hl, -⟩ := (foldl_processResize (resizeOrder m.root)
      ⟨{ m.eventData with stopped := false, data := some size },
        (if m.autoPreventDefault then h.preventDefault event else h).log⟩).2 rfl
    have hc := foldl_processResize_cycles (resizeOrder m.root)
      ⟨{ m.eventData with stopped := false, data := some size },
        (if m.autoPreventDefault then h.preventDefault event else h).log⟩
    rw [hl, List.countP_append] at hc
    have hnew : new.countP Effect.isManagerEmit = 0 := by omega
    simp only [_resizeEvent, hsize, processInteractive_eq_foldl]
    rw [hl]
    cases m.autoPreventDefault
    · exact ⟨new, by simp, hnew⟩
    · refine ⟨[.preventDefault event] ++ new, by simp [Host.preventDefault], ?_⟩
      rw [List.countP_append, hnew]
      rfl
  · intro hd
    simp only [_resizeEvent, hsize, processInteractive_eq_foldl]
    rw [foldl_processResize_data _ _ rfl hd]

/-- C18, witness: on the fullscreen sample manager the size data is the 800 by
600 window, and the cycle, in which the `resize` member of `5` stops the event,
ends with the manager's emission carrying that size data. -/
theorem resizeEvent_emits_once_witness :
    (_resizeEvent sampleManager sampleHost 7).1.1.eventData.data =
      some { originalEvent := 7, width := .num 800, height := .num 600 } ∧
    (_resizeEvent sampleManager sampleHost 7).1.1.eventData.stopped = true ∧
    ∃ before, (_resizeEvent sampleManager sampleHost 7).1.2.log =
      sampleHost.log ++ before ++
        [.managerEmit "resize" (_resizeEvent sampleManager sampleHost 7).1.1.eventData] :=
  have h := resizeEvent_emits_once sampleManager sampleHost 7
    { originalEvent := 7, width := .num 800, height := .num 600 } rfl
  ⟨h.2.2.2 (by
      intro n hn e
      have hmem : n ∈ [SceneNode.mk 4 true true quiet noMember
            [.mk 5 true true quiet stopOnResize []],
          .mk 5 true true quiet stopOnResize []] := hn
      simp only [List.mem_cons, List.mem_singleton, List.not_mem_nil, or_false] at hmem
      rcases hmem with rfl | rfl <;> rfl),
   by decide,
   match h.2.2.1 with
   | ⟨before, hl, _⟩ => ⟨before, hl⟩⟩

/-- C18, counterexample. On the fullscreen manager whose one display object has
a `resize` member that empties the data field, `getSizeData` returns the 800 by
600 window, and the cycle ends with the manager's emission of `resize` carrying
event data whose data field is empty, not the size data computed for the
cycle. -/
theorem resizeEvent_emits_replaced_data :
    getSizeData dropDataManager sampleHost 7 =
      .ok { originalEvent := 7, width := .num 800, height := .num 600 } ∧
    (_resizeEvent dropDataManager sampleHost 7).2 = .ok () ∧
    (_resizeEvent dropDataManager sampleHost 7).1.2.log.getLast? =
      some (.managerEmit "resize"
        { stopped := false, target := some 1, type := some "resize", data := none }) ∧
    (_resizeEvent dropDataManager sampleHost 7).1.1.eventData.data = none :=
  ⟨rfl, rfl, rfl, rfl⟩

end ResizeManager

end Gown
